import Mathlib

set_option maxHeartbeats 1000000
set_option synthInstance.maxHeartbeats 400000
set_option maxRecDepth 2048

/-!
Shallow embedding of the idempotent batch-transcription pipeline of this
repository, following `src/transcribe_mp3_v2.py` (function
`transcribe_folder` and its helpers) and `src/transcribe_audio_cuda.py`
(the module-level main loop and its helpers).

File contents of the append-only state/log files are modelled as lists of
physical lines; the disk is an association list from absolute path to file
content; the external Whisper transcriber and the per-path behaviour of the
artifact writers are oracles bundled in an `Env`.

Python string primitives used by the scripts (`str.strip`,
`str.split("\n\n")`, `str.replace("\n", " ")`, `str.lower`,
`str.endswith`) are implemented here by structural recursion over the
character list, so that every definition evaluates inside the kernel.
-/

abbrev Fpath := String

/-- Python `str.isspace` for one character, as `str.strip` removes it. -/
def pyIsSpace (c : Char) : Bool :=
  c == ' ' || c == '\t' || c == '\n' || c == '\r' || c == '\x0b' || c == '\x0c'

/-- Drop leading whitespace characters. -/
def dropLeadWS : List Char → List Char
  | [] => []
  | c :: cs => if pyIsSpace c then dropLeadWS cs else c :: cs

/-- Python `s.strip()`: remove leading and trailing whitespace. -/
def pyStrip (s : String) : String :=
  String.mk (dropLeadWS ((dropLeadWS s.data.reverse).reverse))

/-- Split a character list on each non-overlapping occurrence of the
two-character separator newline-newline, left to right, as Python
`s.split` with that separator does. -/
def splitNN : List Char → List (List Char)
  | [] => [[]]
  | '\n' :: '\n' :: rest => [] :: splitNN rest
  | c :: rest =>
      match splitNN rest with
      | [] => [[c]]
      | seg :: segs => (c :: seg) :: segs

/-- Python `s.split("\n\n")`. -/
def pySplitBlank (s : String) : List String :=
  (splitNN s.data).map String.mk

/-- Python `s.replace("\n", " ")` (single-character pattern, so a
character-wise map). -/
def pyReplaceNlSpace (s : String) : String :=
  String.mk (s.data.map (fun c => if c == '\n' then ' ' else c))

/-- Python `s.lower()`. -/
def pyLower (s : String) : String :=
  String.mk (s.data.map Char.toLower)

/-- Python `s.endswith(suffix)`. -/
def pyEndsWith (s suffix : String) : Bool :=
  suffix.data.isSuffixOf s.data

/-- One line of the success or error log: the file path it names and the
rest of the line (timestamp plus duration or error message). -/
structure LogEntry where
  path : Fpath
  detail : String
  deriving DecidableEq

/-- Model of a python-docx `Document`: the ordered list of paragraph blocks
added by `add_paragraph`. -/
structure DocxDoc where
  paragraphs : List String
  deriving DecidableEq

/-- A fresh `Document()`. -/
def Document.new : DocxDoc := ⟨[]⟩

/-- `doc.add_paragraph(s)`: appends one paragraph block. -/
def add_paragraph (d : DocxDoc) (s : String) : DocxDoc :=
  ⟨d.paragraphs ++ [s]⟩

namespace V2

/-- Model of `save_docx` in transcribe_mp3_v2.py (lines 108-113): a single
`doc.add_paragraph(text)` call on a fresh document, i.e. the whole text as
one paragraph block. -/
def save_docx (text : String) : DocxDoc :=
  add_paragraph Document.new text

end V2

namespace Cuda

/-- Model of `save_docx` in transcribe_audio_cuda.py (lines 105-110): the
stripped text is split on blank lines and each segment is added, stripped,
as its own paragraph. -/
def save_docx (text : String) : DocxDoc :=
  (pySplitBlank (pyStrip text)).foldl (fun d para => add_paragraph d (pyStrip para)) Document.new

end Cuda

/-- Model of `save_pdf` (identical story construction in both scripts): one
justified paragraph per blank-line segment of the stripped text, with inner
newlines replaced by spaces. -/
def save_pdf (text : String) : List String :=
  (pySplitBlank (pyStrip text)).map (fun p => pyReplaceNlSpace (pyStrip p))

/-- The spec's wording of the paragraph form: the text split on blank-line
boundaries into a sequence of paragraphs. -/
def specBlankSegments (text : String) : List String :=
  pySplitBlank text

/-- Model of `load_processed_set` in transcribe_mp3_v2.py (lines 66-72):
strip each line, drop blank lines, return the set of the rest.  File
content is modelled as its list of physical lines. -/
def load_processed_set (lines : List String) : Finset String :=
  ((lines.map pyStrip).filter (fun ln => !(ln == ""))).toFinset

/-- Model of `load_processed_files` in transcribe_audio_cuda.py (lines
95-99): the set of the raw lines. -/
def load_processed_files (lines : List String) : Finset String :=
  lines.toFinset

/-- Content of a file on disk in the model.  `torn` is the partial file a
failed write may leave behind. -/
inductive FileContent where
  | audio
  | txt (body : String)
  | docx (doc : DocxDoc)
  | pdf (story : List String)
  | torn
  deriving DecidableEq

/-- The disk: an association list from absolute path to file content. -/
abbrev Disk := List (Fpath × FileContent)

/-- `os.path.exists` on the modelled disk. -/
def diskHas (d : Disk) (p : Fpath) : Bool :=
  d.any (fun e => e.1 == p)

/-- Writing content to a path (creating or overwriting). -/
def diskSet (d : Disk) (p : Fpath) (c : FileContent) : Disk :=
  (d.filter (fun e => !(e.1 == p))) ++ [(p, c)]

/-- A discovered audio file together with its three sibling artifact paths
(directory/base + .txt/.docx/.pdf, as both scripts derive them). -/
structure Candidate where
  path : Fpath
  txtPath : Fpath
  docxPath : Fpath
  pdfPath : Fpath
  deriving DecidableEq

/-- The three artifact paths of a candidate, in write order. -/
def artifactPaths (c : Candidate) : List Fpath :=
  [c.txtPath, c.docxPath, c.pdfPath]

/-- State threaded through the batch loop: the disk, the lines of the
processed-list file, the in-memory processed set, the two logs, the summary
counters of `transcribe_folder`, and instrumentation recording every
Transcriber call and every artifact write attempt. -/
structure RunState where
  disk : Disk
  storeLines : List String
  processed : Finset String
  logSuccess : List LogEntry
  logError : List LogEntry
  total : Nat
  skippedProcessed : Nat
  skippedExisting : Nat
  succeeded : Nat
  failed : Nat
  transcribeCalls : List Fpath
  writeCalls : List Fpath
  deriving DecidableEq

/-- External collaborators: the Whisper transcriber oracle, the per-path
write-failure oracle (`some msg` means the write raises `msg`), whether a
failing write leaves a partial file behind, and the opaque
timestamp/duration text of a success log line. -/
structure Env where
  transcribe : Fpath → Except String String
  writeFails : Fpath → Option String
  partialLeft : Fpath → Bool
  successDetail : Fpath → String

/-- One artifact write (a `save_txt`/`save_docx`/`save_pdf` call): records
the attempt, then either writes the content, or raises the oracle's
message, possibly leaving a torn partial file on disk. -/
def writeFile (env : Env) (s : RunState) (p : Fpath) (content : FileContent) :
    RunState × Option String :=
  let s1 := { s with writeCalls := s.writeCalls ++ [p] }
  match env.writeFails p with
  | some msg =>
      (if env.partialLeft p then { s1 with disk := diskSet s1.disk p FileContent.torn } else s1,
       some msg)
  | none => ({ s1 with disk := diskSet s1.disk p content }, none)

/-- The three sequential artifact writes of the success path (`save_txt`,
then `save_docx`, then `save_pdf`), stopping at the first raising write. -/
def attemptWrites (env : Env) (docx : String → DocxDoc) (s : RunState) (c : Candidate)
    (text : String) : RunState × Option String :=
  let r1 := writeFile env s c.txtPath (FileContent.txt text)
  if r1.2.isSome then r1 else
  let r2 := writeFile env r1.1 c.docxPath (FileContent.docx (docx text))
  if r2.2.isSome then r2 else
  writeFile env r2.1 c.pdfPath (FileContent.pdf (save_pdf text))

/-- All three output artifacts already exist on disk. -/
def allArtifactsB (d : Disk) (c : Candidate) : Bool :=
  diskHas d c.txtPath && diskHas d c.docxPath && diskHas d c.pdfPath

namespace V2

/-- The skip-existing branch of transcribe_mp3_v2 (lines 219-225): append
the path to the processed-list file, add it to the in-memory set, count the
skip. -/
def promote (s : RunState) (p : Fpath) : RunState :=
  { s with storeLines := s.storeLines ++ [p],
           processed := insert p s.processed,
           skippedExisting := s.skippedExisting + 1 }

/-- The except branch (lines 251-255): append an ERROR line, count the
failure, continue. -/
def failLog (s : RunState) (p : Fpath) (msg : String) : RunState :=
  { s with logError := s.logError ++ [⟨p, msg⟩], failed := s.failed + 1 }

/-- The full-success tail (lines 247-250): append a SUCCESS line, append
the path to the processed-list file, add to the in-memory set, count. -/
def succLog (env : Env) (s : RunState) (p : Fpath) : RunState :=
  { s with logSuccess := s.logSuccess ++ [⟨p, env.successDetail p⟩],
           storeLines := s.storeLines ++ [p],
           processed := insert p s.processed,
           succeeded := s.succeeded + 1 }

/-- The try block of the per-file loop (lines 228-255): transcribe, strip,
write the three artifacts, then log success and record; any raise goes to
the except branch. -/
def processOne (env : Env) (s : RunState) (c : Candidate) : RunState :=
  match env.transcribe c.path with
  | Except.error msg => failLog s c.path msg
  | Except.ok raw =>
    let r := attemptWrites env V2.save_docx s c (pyStrip raw)
    match r.2 with
    | some m => failLog r.1 c.path m
    | none => succLog env r.1 c.path

/-- Body of the per-file loop of `transcribe_folder` (lines 203-255), after
the extension filter: count the file, skip if recorded, else skip-promote
if all artifacts exist, else transcribe and write. -/
def step (env : Env) (s : RunState) (c : Candidate) : RunState :=
  let s := { s with total := s.total + 1 }
  if c.path ∈ s.processed then
    { s with skippedProcessed := s.skippedProcessed + 1 }
  else if allArtifactsB s.disk c then
    promote s c.path
  else
    processOne env { s with transcribeCalls := s.transcribeCalls ++ [c.path] } c

/-- The walk loop of `transcribe_folder` over the discovered candidates. -/
def transcribe_folder (env : Env) (s : RunState) (cs : List Candidate) : RunState :=
  cs.foldl (step env) s

/-- Initial run state of `transcribe_folder`: hydrate the processed set
from the processed-list file, counters at zero, no calls yet. -/
def mkInit (d : Disk) (store : List String) (ls le : List LogEntry) : RunState :=
  { disk := d, storeLines := store, processed := load_processed_set store,
    logSuccess := ls, logError := le,
    total := 0, skippedProcessed := 0, skippedExisting := 0, succeeded := 0, failed := 0,
    transcribeCalls := [], writeCalls := [] }

end V2

namespace Cuda

/-- A caught exception in the cuda loop (lines 254-256): append an ERROR
line, continue. -/
def failLog (s : RunState) (p : Fpath) (msg : String) : RunState :=
  { s with logError := s.logError ++ [⟨p, msg⟩] }

/-- The full-success tail (lines 250-252): append a SUCCESS line, then
append the path to the processed-list file.  The in-memory set is not
updated. -/
def succLog (env : Env) (s : RunState) (p : Fpath) : RunState :=
  { s with logSuccess := s.logSuccess ++ [⟨p, env.successDetail p⟩],
           storeLines := s.storeLines ++ [p] }

/-- The transcription part of the try block (lines 225-252). -/
def processOne (env : Env) (s : RunState) (c : Candidate) : RunState :=
  match env.transcribe c.path with
  | Except.error msg => failLog s c.path msg
  | Except.ok raw =>
    let r := attemptWrites env Cuda.save_docx s c (pyStrip raw)
    match r.2 with
    | some m => failLog r.1 c.path m
    | none => succLog env r.1 c.path

/-- Body of the main loop of transcribe_audio_cuda.py (lines 201-256):
skip silently when recorded or all artifacts exist, log an error for a
vanished source file, else transcribe and write. -/
def step (env : Env) (s : RunState) (c : Candidate) : RunState :=
  if c.path ∈ s.processed ∨ allArtifactsB s.disk c then
    s
  else if !(diskHas s.disk c.path) then
    { s with logError := s.logError ++ [⟨c.path, "File not found"⟩] }
  else
    processOne env { s with transcribeCalls := s.transcribeCalls ++ [c.path] } c

/-- The main transcribe loop over all collected files. -/
def main_loop (env : Env) (s : RunState) (cs : List Candidate) : RunState :=
  cs.foldl (step env) s

/-- Initial run state of the cuda script: hydrate the processed set with
`load_processed_files`, no calls yet. -/
def mkInit (d : Disk) (store : List String) (ls le : List LogEntry) : RunState :=
  { disk := d, storeLines := store, processed := load_processed_files store,
    logSuccess := ls, logError := le,
    total := 0, skippedProcessed := 0, skippedExisting := 0, succeeded := 0, failed := 0,
    transcribeCalls := [], writeCalls := [] }

end Cuda

/-- A directory tree: the file names directly in the directory, then its
subdirectories, as visited by a top-down `os.walk`. -/
inductive DirTree where
  | node (files : List String) (subdirs : List DirTree)

mutual

/-- The filenames yielded by `os.walk` in traversal order. -/
def walkFiles : DirTree → List String
  | DirTree.node fs subs => fs ++ walkForest subs

/-- Walk of a list of sibling subdirectories. -/
def walkForest : List DirTree → List String
  | [] => []
  | t :: ts => walkFiles t ++ walkForest ts

end

/-- Extension filter of transcribe_mp3_v2 (line 200): case-insensitive
suffix match of the filename against the configured allow-list. -/
def matchesExt (exts : List String) (filename : String) : Bool :=
  exts.any (fun ext => pyEndsWith (pyLower filename) (pyLower ext))

/-- Hard-wired allow-list of transcribe_audio_cuda.py (line 55). -/
def SUPPORTED_EXT : List String :=
  [".mp3", ".m4a", ".wav", ".flac", ".ogg", ".aac", ".wma", ".webm"]

/-- Extension filter of transcribe_audio_cuda (line 190): lowers the
filename only, comparing it against the built-in lowercase list. -/
def matchesExtCuda (filename : String) : Bool :=
  SUPPORTED_EXT.any (fun ext => pyEndsWith (pyLower filename) ext)

/-- File discovery: the walked filenames that pass the extension filter. -/
def discover (exts : List String) (tree : DirTree) : List String :=
  (walkFiles tree).filter (matchesExt exts)

/-- Claim C8, counterexample: the spec requires one docx paragraph per
blank-line-delimited segment, but `save_docx` of transcribe_mp3_v2 puts
the payload containing a blank line into a single paragraph block. -/
theorem c8_counterexample :
    (V2.save_docx "a\n\nb").paragraphs ≠ specBlankSegments "a\n\nb" ∧
    (specBlankSegments "a\n\nb").length = 2 ∧
    (V2.save_docx "a\n\nb").paragraphs.length = 1 := by
  refine ⟨?_, by decide, by decide⟩
  decide

/-- Claim C8 (amended): the cuda pipeline's docx has one paragraph per
blank-line-delimited segment of the stripped payload, each segment
stripped; the v2 pipeline's docx contains the entire payload as a single
paragraph block. -/
theorem c8_amended (text : String) :
    (Cuda.save_docx text).paragraphs = (pySplitBlank (pyStrip text)).map pyStrip ∧
    (V2.save_docx text).paragraphs = [text] := by
  constructor
  · have key : ∀ (l : List String) (d : DocxDoc),
        (l.foldl (fun d para => add_paragraph d (pyStrip para)) d).paragraphs
          = d.paragraphs ++ l.map pyStrip := by
      intro l
      induction l with
      | nil => intro d; simp
      | cons a t ih =>
        intro d
        rw [List.foldl_cons, ih]
        simp [add_paragraph]
    simpa [Cuda.save_docx, Document.new] using key (pySplitBlank (pyStrip text)) Document.new
  · rfl


/-! Helper lemmas about the disk and the write primitives. -/

lemma diskHas_diskSet_imp (d : Disk) (q p : Fpath) (ct : FileContent)
    (h : diskHas (diskSet d q ct) p = true) : p = q ∨ diskHas d p = true := by
  unfold diskSet at h
  unfold diskHas at h ⊢
  rcases List.any_eq_true.1 h with ⟨e, he, hep⟩
  rcases List.mem_append.1 he with h1 | h1
  · exact Or.inr (List.any_eq_true.2 ⟨e, (List.mem_filter.1 h1).1, hep⟩)
  · have he2 : e = (q, ct) := List.mem_singleton.1 h1
    subst he2
    exact Or.inl (eq_of_beq hep).symm

/-- All run-state fields except the disk and the write-call trace agree. -/
def framePreserved (s r : RunState) : Prop :=
  r.storeLines = s.storeLines ∧ r.processed = s.processed ∧
  r.logSuccess = s.logSuccess ∧ r.logError = s.logError ∧
  r.transcribeCalls = s.transcribeCalls ∧ r.total = s.total ∧
  r.skippedProcessed = s.skippedProcessed ∧ r.skippedExisting = s.skippedExisting ∧
  r.succeeded = s.succeeded ∧ r.failed = s.failed

lemma framePreserved_refl (s : RunState) : framePreserved s s := by
  unfold framePreserved
  exact ⟨rfl, rfl, rfl, rfl, rfl, rfl, rfl, rfl, rfl, rfl⟩

lemma framePreserved_trans {s t u : RunState}
    (h1 : framePreserved s t) (h2 : framePreserved t u) : framePreserved s u := by
  obtain ⟨a1, b1, c1, d1, e1, f1, g1, i1, j1, k1⟩ := h1
  obtain ⟨a2, b2, c2, d2, e2, f2, g2, i2, j2, k2⟩ := h2
  exact ⟨a2.trans a1, b2.trans b1, c2.trans c1, d2.trans d1, e2.trans e1,
         f2.trans f1, g2.trans g1, i2.trans i1, j2.trans j1, k2.trans k1⟩

lemma writeFile_frame (env : Env) (s : RunState) (p : Fpath) (ct : FileContent) :
    framePreserved s (writeFile env s p ct).1 := by
  unfold writeFile framePreserved
  cases h : env.writeFails p
  · simp
  · simp only
    split <;> simp

lemma writeFile_writeCalls (env : Env) (s : RunState) (p : Fpath) (ct : FileContent) :
    (writeFile env s p ct).1.writeCalls = s.writeCalls ++ [p] := by
  unfold writeFile
  cases h : env.writeFails p
  · simp
  · simp only
    split <;> simp

lemma writeFile_disk_imp (env : Env) (s : RunState) (p : Fpath) (ct : FileContent)
    (x : Fpath) (h : diskHas (writeFile env s p ct).1.disk x = true) :
    diskHas s.disk x = true ∨ x = p := by
  unfold writeFile at h
  cases hw : env.writeFails p <;> rw [hw] at h
  · simp only at h
    rcases diskHas_diskSet_imp _ _ _ _ h with h1 | h1
    · exact Or.inr h1
    · exact Or.inl h1
  · simp only at h
    split at h
    · rcases diskHas_diskSet_imp _ _ _ _ h with h1 | h1
      · exact Or.inr h1
      · exact Or.inl h1
    · exact Or.inl h

lemma writeFile_snd (env : Env) (s : RunState) (p : Fpath) (ct : FileContent) :
    (writeFile env s p ct).2 = env.writeFails p := by
  unfold writeFile
  cases h : env.writeFails p <;> simp [h]

lemma attemptWrites_frame (env : Env) (docx : String → DocxDoc) (s : RunState)
    (c : Candidate) (text : String) :
    framePreserved s (attemptWrites env docx s c text).1 := by
  unfold attemptWrites
  by_cases h1 : (writeFile env s c.txtPath (FileContent.txt text)).2.isSome = true
  · simpa [h1] using writeFile_frame env s c.txtPath (FileContent.txt text)
  · simp only [h1, if_false, Bool.not_eq_true] at *
    set s1 := (writeFile env s c.txtPath (FileContent.txt text)).1 with hs1
    have f1 : framePreserved s s1 := writeFile_frame env s c.txtPath (FileContent.txt text)
    by_cases h2 : (writeFile env s1 c.docxPath (FileContent.docx (docx text))).2.isSome = true
    · simpa [h1, h2] using
        framePreserved_trans f1 (writeFile_frame env s1 c.docxPath (FileContent.docx (docx text)))
    · simp only [h1, h2, Bool.not_eq_true, if_false]
      set s2 := (writeFile env s1 c.docxPath (FileContent.docx (docx text))).1 with hs2
      have f2 : framePreserved s s2 :=
        framePreserved_trans f1 (writeFile_frame env s1 c.docxPath (FileContent.docx (docx text)))
      simpa using
        framePreserved_trans f2 (writeFile_frame env s2 c.pdfPath (FileContent.pdf (save_pdf text)))

lemma attemptWrites_none_iff (env : Env) (docx : String → DocxDoc) (s : RunState)
    (c : Candidate) (text : String) :
    (attemptWrites env docx s c text).2 = none ↔
      env.writeFails c.txtPath = none ∧ env.writeFails c.docxPath = none ∧
        env.writeFails c.pdfPath = none := by
  unfold attemptWrites
  cases ht : env.writeFails c.txtPath with
  | some m =>
    have w1 := writeFile_snd env s c.txtPath (FileContent.txt text)
    rw [ht] at w1
    simp [w1]
  | none =>
    have w1 := writeFile_snd env s c.txtPath (FileContent.txt text)
    rw [ht] at w1
    set s1 := (writeFile env s c.txtPath (FileContent.txt text)).1 with hs1
    cases hd : env.writeFails c.docxPath with
    | some m =>
      have w2 := writeFile_snd env s1 c.docxPath (FileContent.docx (docx text))
      rw [hd] at w2
      simp [w1, w2]
    | none =>
      have w2 := writeFile_snd env s1 c.docxPath (FileContent.docx (docx text))
      rw [hd] at w2
      set s2 := (writeFile env s1 c.docxPath (FileContent.docx (docx text))).1 with hs2
      have w3 := writeFile_snd env s2 c.pdfPath (FileContent.pdf (save_pdf text))
      simp [w1, w2, w3]

lemma attemptWrites_calls_of_none (env : Env) (docx : String → DocxDoc) (s : RunState)
    (c : Candidate) (text : String)
    (h : (attemptWrites env docx s c text).2 = none) :
    (attemptWrites env docx s c text).1.writeCalls = s.writeCalls ++ artifactPaths c := by
  obtain ⟨ht, hd, hp⟩ := (attemptWrites_none_iff env docx s c text).1 h
  unfold attemptWrites
  have w1 := writeFile_snd env s c.txtPath (FileContent.txt text)
  rw [ht] at w1
  set s1 := (writeFile env s c.txtPath (FileContent.txt text)).1 with hs1
  have w2 := writeFile_snd env s1 c.docxPath (FileContent.docx (docx text))
  rw [hd] at w2
  set s2 := (writeFile env s1 c.docxPath (FileContent.docx (docx text))).1 with hs2
  have w3 := writeFile_snd env s2 c.pdfPath (FileContent.pdf (save_pdf text))
  rw [hp] at w3
  have k1 : s1.writeCalls = s.writeCalls ++ [c.txtPath] :=
    writeFile_writeCalls env s c.txtPath (FileContent.txt text)
  have k2 : s2.writeCalls = s1.writeCalls ++ [c.docxPath] :=
    writeFile_writeCalls env s1 c.docxPath (FileContent.docx (docx text))
  have k3 := writeFile_writeCalls env s2 c.pdfPath (FileContent.pdf (save_pdf text))
  simp only [w1, w2, Option.isSome_none, if_false, Bool.false_eq_true]
  rw [k3, k2, k1]
  simp [artifactPaths]

lemma attemptWrites_writeCalls_imp (env : Env) (docx : String → DocxDoc) (s : RunState)
    (c : Candidate) (text : String) (x : Fpath)
    (h : x ∈ (attemptWrites env docx s c text).1.writeCalls) :
    x ∈ s.writeCalls ∨ x ∈ artifactPaths c := by
  unfold attemptWrites at h
  by_cases h1 : (writeFile env s c.txtPath (FileContent.txt text)).2.isSome = true
  · rw [if_pos h1] at h
    rw [writeFile_writeCalls env s c.txtPath (FileContent.txt text)] at h
    rcases List.mem_append.1 h with h' | h'
    · exact Or.inl h'
    · simp at h'
      exact Or.inr (by simp [artifactPaths, h'])
  · rw [if_neg h1] at h
    set s1 := (writeFile env s c.txtPath (FileContent.txt text)).1 with hs1
    have k1 : s1.writeCalls = s.writeCalls ++ [c.txtPath] :=
      writeFile_writeCalls env s c.txtPath (FileContent.txt text)
    by_cases h2 : (writeFile env s1 c.docxPath (FileContent.docx (docx text))).2.isSome = true
    · rw [if_pos h2] at h
      rw [writeFile_writeCalls env s1 c.docxPath (FileContent.docx (docx text)), k1] at h
      rcases List.mem_append.1 h with h' | h'
      · rcases List.mem_append.1 h' with h'' | h''
        · exact Or.inl h''
        · simp at h''
          exact Or.inr (by simp [artifactPaths, h''])
      · simp at h'
        exact Or.inr (by simp [artifactPaths, h'])
    · rw [if_neg h2] at h
      set s2 := (writeFile env s1 c.docxPath (FileContent.docx (docx text))).1 with hs2
      have k2 : s2.writeCalls = s1.writeCalls ++ [c.docxPath] :=
        writeFile_writeCalls env s1 c.docxPath (FileContent.docx (docx text))
      rw [writeFile_writeCalls env s2 c.pdfPath (FileContent.pdf (save_pdf text)),
          k2, k1] at h
      rcases List.mem_append.1 h with h' | h'
      · rcases List.mem_append.1 h' with h'' | h''
        · rcases List.mem_append.1 h'' with h3 | h3
          · exact Or.inl h3
          · simp at h3
            exact Or.inr (by simp [artifactPaths, h3])
        · simp at h''
          exact Or.inr (by simp [artifactPaths, h''])
      · simp at h'
        exact Or.inr (by simp [artifactPaths, h'])

lemma attemptWrites_disk_imp (env : Env) (docx : String → DocxDoc) (s : RunState)
    (c : Candidate) (text : String) (x : Fpath)
    (h : diskHas (attemptWrites env docx s c text).1.disk x = true) :
    diskHas s.disk x = true ∨ x ∈ artifactPaths c := by
  unfold attemptWrites at h
  by_cases h1 : (writeFile env s c.txtPath (FileContent.txt text)).2.isSome = true
  · rw [if_pos h1] at h
    rcases writeFile_disk_imp env s c.txtPath (FileContent.txt text) x h with h' | h'
    · exact Or.inl h'
    · exact Or.inr (by simp [artifactPaths, h'])
  · rw [if_neg h1] at h
    set s1 := (writeFile env s c.txtPath (FileContent.txt text)).1 with hs1
    by_cases h2 : (writeFile env s1 c.docxPath (FileContent.docx (docx text))).2.isSome = true
    · rw [if_pos h2] at h
      rcases writeFile_disk_imp env s1 c.docxPath (FileContent.docx (docx text)) x h with h' | h'
      · rcases writeFile_disk_imp env s c.txtPath (FileContent.txt text) x h' with h'' | h''
        · exact Or.inl h''
        · exact Or.inr (by simp [artifactPaths, h''])
      · exact Or.inr (by simp [artifactPaths, h'])
    · rw [if_neg h2] at h
      set s2 := (writeFile env s1 c.docxPath (FileContent.docx (docx text))).1 with hs2
      rcases writeFile_disk_imp env s2 c.pdfPath (FileContent.pdf (save_pdf text)) x h with h' | h'
      · rcases writeFile_disk_imp env s1 c.docxPath (FileContent.docx (docx text)) x h' with h'' | h''
        · rcases writeFile_disk_imp env s c.txtPath (FileContent.txt text) x h'' with h3 | h3
          · exact Or.inl h3
          · exact Or.inr (by simp [artifactPaths, h3])
        · exact Or.inr (by simp [artifactPaths, h''])
      · exact Or.inr (by simp [artifactPaths, h'])

/-! Branch characterizations of the two per-file loop bodies. -/

lemma v2_step_mem (env : Env) (s : RunState) (c : Candidate)
    (h : c.path ∈ s.processed) :
    V2.step env s c =
      { s with total := s.total + 1, skippedProcessed := s.skippedProcessed + 1 } := by
  unfold V2.step
  simp [h]

lemma v2_step_promote (env : Env) (s : RunState) (c : Candidate)
    (h1 : c.path ∉ s.processed) (h2 : allArtifactsB s.disk c = true) :
    V2.step env s c = V2.promote { s with total := s.total + 1 } c.path := by
  unfold V2.step
  simp [h1, h2]

lemma v2_step_eligible (env : Env) (s : RunState) (c : Candidate)
    (h1 : c.path ∉ s.processed) (h2 : allArtifactsB s.disk c = false) :
    V2.step env s c =
      V2.processOne env
        { s with total := s.total + 1,
                 transcribeCalls := s.transcribeCalls ++ [c.path] } c := by
  unfold V2.step
  simp [h1, h2]

lemma v2_processOne_error (env : Env) (s : RunState) (c : Candidate) (msg : String)
    (h : env.transcribe c.path = Except.error msg) :
    V2.processOne env s c = V2.failLog s c.path msg := by
  unfold V2.processOne
  rw [h]

lemma v2_processOne_ok_fail (env : Env) (s : RunState) (c : Candidate) (raw m : String)
    (h : env.transcribe c.path = Except.ok raw)
    (hw : (attemptWrites env V2.save_docx s c (pyStrip raw)).2 = some m) :
    V2.processOne env s c =
      V2.failLog (attemptWrites env V2.save_docx s c (pyStrip raw)).1 c.path m := by
  unfold V2.processOne
  rw [h]
  simp only [hw]

lemma v2_processOne_ok_succ (env : Env) (s : RunState) (c : Candidate) (raw : String)
    (h : env.transcribe c.path = Except.ok raw)
    (hw : (attemptWrites env V2.save_docx s c (pyStrip raw)).2 = none) :
    V2.processOne env s c =
      V2.succLog env (attemptWrites env V2.save_docx s c (pyStrip raw)).1 c.path := by
  unfold V2.processOne
  rw [h]
  simp only [hw]

lemma cuda_step_skip (env : Env) (s : RunState) (c : Candidate)
    (h : c.path ∈ s.processed ∨ allArtifactsB s.disk c = true) :
    Cuda.step env s c = s := by
  unfold Cuda.step
  rw [if_pos h]

lemma cuda_step_notfound (env : Env) (s : RunState) (c : Candidate)
    (h1 : ¬(c.path ∈ s.processed ∨ allArtifactsB s.disk c = true))
    (h2 : diskHas s.disk c.path = false) :
    Cuda.step env s c =
      { s with logError := s.logError ++ [⟨c.path, "File not found"⟩] } := by
  unfold Cuda.step
  rw [if_neg h1, if_pos (by simp [h2])]

lemma cuda_step_eligible (env : Env) (s : RunState) (c : Candidate)
    (h1 : ¬(c.path ∈ s.processed ∨ allArtifactsB s.disk c = true))
    (h2 : diskHas s.disk c.path = true) :
    Cuda.step env s c =
      Cuda.processOne env { s with transcribeCalls := s.transcribeCalls ++ [c.path] } c := by
  unfold Cuda.step
  rw [if_neg h1, if_neg (by simp [h2])]

lemma cuda_processOne_error (env : Env) (s : RunState) (c : Candidate) (msg : String)
    (h : env.transcribe c.path = Except.error msg) :
    Cuda.processOne env s c = Cuda.failLog s c.path msg := by
  unfold Cuda.processOne
  rw [h]

lemma cuda_processOne_ok_fail (env : Env) (s : RunState) (c : Candidate) (raw m : String)
    (h : env.transcribe c.path = Except.ok raw)
    (hw : (attemptWrites env Cuda.save_docx s c (pyStrip raw)).2 = some m) :
    Cuda.processOne env s c =
      Cuda.failLog (attemptWrites env Cuda.save_docx s c (pyStrip raw)).1 c.path m := by
  unfold Cuda.processOne
  rw [h]
  simp only [hw]

lemma cuda_processOne_ok_succ (env : Env) (s : RunState) (c : Candidate) (raw : String)
    (h : env.transcribe c.path = Except.ok raw)
    (hw : (attemptWrites env Cuda.save_docx s c (pyStrip raw)).2 = none) :
    Cuda.processOne env s c =
      Cuda.succLog env (attemptWrites env Cuda.save_docx s c (pyStrip raw)).1 c.path := by
  unfold Cuda.processOne
  rw [h]
  simp only [hw]

lemma v2_run_nil (env : Env) (s : RunState) : V2.transcribe_folder env s [] = s := rfl

lemma v2_run_cons (env : Env) (s : RunState) (c : Candidate) (cs : List Candidate) :
    V2.transcribe_folder env s (c :: cs) =
      V2.transcribe_folder env (V2.step env s c) cs := rfl

lemma v2_run_append (env : Env) (s : RunState) (cs ds : List Candidate) :
    V2.transcribe_folder env s (cs ++ ds) =
      V2.transcribe_folder env (V2.transcribe_folder env s cs) ds := by
  unfold V2.transcribe_folder
  exact List.foldl_append _ _ _ _

lemma cuda_run_cons (env : Env) (s : RunState) (c : Candidate) (cs : List Candidate) :
    Cuda.main_loop env s (c :: cs) = Cuda.main_loop env (Cuda.step env s c) cs := rfl

lemma cuda_run_append (env : Env) (s : RunState) (cs ds : List Candidate) :
    Cuda.main_loop env s (cs ++ ds) =
      Cuda.main_loop env (Cuda.main_loop env s cs) ds := by
  unfold Cuda.main_loop
  exact List.foldl_append _ _ _ _

/-- Claim C1 (amended): a candidate file absent from the state store whose
three artifacts all exist on disk is skipped with zero Transcriber calls
and zero Writer calls in both scripts; transcribe_mp3_v2 promotes it into
the processed-list file and the in-memory set, while transcribe_audio_cuda
leaves the run state (and hence the store) entirely unchanged, performing
no promotion. -/
theorem c1_amended (env : Env) (s : RunState) (c : Candidate)
    (h1 : c.path ∉ s.processed) (h2 : allArtifactsB s.disk c = true) :
    (V2.step env s c).transcribeCalls = s.transcribeCalls ∧
    (V2.step env s c).writeCalls = s.writeCalls ∧
    (V2.step env s c).storeLines = s.storeLines ++ [c.path] ∧
    c.path ∈ (V2.step env s c).processed ∧
    (V2.step env s c).disk = s.disk ∧
    (V2.step env s c).skippedExisting = s.skippedExisting + 1 ∧
    Cuda.step env s c = s := by
  rw [v2_step_promote env s c h1 h2, cuda_step_skip env s c (Or.inr h2)]
  unfold V2.promote
  refine ⟨rfl, rfl, rfl, ?_, rfl, rfl, rfl⟩
  simp

/-- Claim C1, witness for the amended theorem at a concrete input. -/
def wCand : Candidate :=
  ⟨"/r/a.mp3", "/r/a.txt", "/r/a.docx", "/r/a.pdf"⟩

/-- A disk on which the source file and all three artifacts exist. -/
def wDiskFull : Disk :=
  [("/r/a.mp3", FileContent.audio), ("/r/a.txt", FileContent.txt "x"),
   ("/r/a.docx", FileContent.docx ⟨["x"]⟩), ("/r/a.pdf", FileContent.pdf ["x"])]

/-- A well-behaved environment: transcription succeeds, no write fails. -/
def wEnvOk : Env :=
  { transcribe := fun _ => Except.ok "hello world",
    writeFails := fun _ => none,
    partialLeft := fun _ => false,
    successDetail := fun _ => "0.10 sec" }

/-- Claim C1, witness: the amended theorem applied at a concrete state. -/
theorem c1_amended_witness :
    ("/r/a.mp3" ∉ (V2.mkInit wDiskFull [] [] []).processed ∧
      allArtifactsB (V2.mkInit wDiskFull [] [] []).disk wCand = true) ∧
    ((V2.step wEnvOk (V2.mkInit wDiskFull [] [] []) wCand).transcribeCalls =
        (V2.mkInit wDiskFull [] [] []).transcribeCalls ∧
      (V2.step wEnvOk (V2.mkInit wDiskFull [] [] []) wCand).writeCalls =
        (V2.mkInit wDiskFull [] [] []).writeCalls ∧
      (V2.step wEnvOk (V2.mkInit wDiskFull [] [] []) wCand).storeLines =
        (V2.mkInit wDiskFull [] [] []).storeLines ++ [wCand.path] ∧
      wCand.path ∈ (V2.step wEnvOk (V2.mkInit wDiskFull [] [] []) wCand).processed ∧
      (V2.step wEnvOk (V2.mkInit wDiskFull [] [] []) wCand).disk =
        (V2.mkInit wDiskFull [] [] []).disk ∧
      (V2.step wEnvOk (V2.mkInit wDiskFull [] [] []) wCand).skippedExisting =
        (V2.mkInit wDiskFull [] [] []).skippedExisting + 1 ∧
      Cuda.step wEnvOk (V2.mkInit wDiskFull [] [] []) wCand = V2.mkInit wDiskFull [] [] []) :=
  ⟨⟨by decide, by decide⟩,
    c1_amended wEnvOk (V2.mkInit wDiskFull [] [] []) wCand (by decide) (by decide)⟩

/-- Claim C1, counterexample: in transcribe_audio_cuda, a file with all
three artifacts present and absent from the store is skipped (no
Transcriber call, no Writer call) but is NOT recorded into the store: the
processed-list file stays empty and the path is not a member afterward,
contradicting the claim that every such file is promoted. -/
theorem c1_counterexample :
    ("/r/a.mp3" ∉ (Cuda.mkInit wDiskFull [] [] []).processed ∧
      allArtifactsB wDiskFull wCand = true) ∧
    (Cuda.main_loop wEnvOk (Cuda.mkInit wDiskFull [] [] []) [wCand]).transcribeCalls = [] ∧
    (Cuda.main_loop wEnvOk (Cuda.mkInit wDiskFull [] [] []) [wCand]).writeCalls = [] ∧
    (Cuda.main_loop wEnvOk (Cuda.mkInit wDiskFull [] [] []) [wCand]).storeLines = [] ∧
    "/r/a.mp3" ∉
      load_processed_files
        (Cuda.main_loop wEnvOk (Cuda.mkInit wDiskFull [] [] []) [wCand]).storeLines := by
  refine ⟨⟨by decide, by decide⟩, by decide, by decide, by decide, by decide⟩

/-- Claim C3: in both scripts the processed-state record is appended only
after all three artifact writes completed; if any of the three writes
raises, the file is not recorded (the store file and the in-memory set are
unchanged for that path) and the failure is logged instead. -/
theorem c3_record_only_after_writes (env : Env) (s : RunState) (c : Candidate) (raw : String)
    (h1 : c.path ∉ s.processed) (h2 : allArtifactsB s.disk c = false)
    (h3 : diskHas s.disk c.path = true)
    (h4 : env.transcribe c.path = Except.ok raw) :
    (((env.writeFails c.txtPath).isSome ∨ (env.writeFails c.docxPath).isSome ∨
        (env.writeFails c.pdfPath).isSome) →
      (V2.step env s c).storeLines = s.storeLines ∧
      (V2.step env s c).processed = s.processed ∧
      (V2.step env s c).failed = s.failed + 1 ∧
      (Cuda.step env s c).storeLines = s.storeLines) ∧
    ((env.writeFails c.txtPath = none ∧ env.writeFails c.docxPath = none ∧
        env.writeFails c.pdfPath = none) →
      (V2.step env s c).storeLines = s.storeLines ++ [c.path] ∧
      c.path ∈ (V2.step env s c).processed ∧
      (V2.step env s c).writeCalls = s.writeCalls ++ artifactPaths c ∧
      (Cuda.step env s c).storeLines = s.storeLines ++ [c.path]) := by
  have hskip : ¬(c.path ∈ s.processed ∨ allArtifactsB s.disk c = true) := by
    intro h
    rcases h with h | h
    · exact h1 h
    · rw [h2] at h
      exact Bool.false_ne_true h
  set sV := ({ s with total := s.total + 1, transcribeCalls := s.transcribeCalls ++ [c.path] } : RunState) with hsV
  set sC := ({ s with transcribeCalls := s.transcribeCalls ++ [c.path] } : RunState) with hsC
  constructor
  · intro hany
    have hwV : ∃ m, (attemptWrites env V2.save_docx sV c (pyStrip raw)).2 = some m := by
      rcases h : (attemptWrites env V2.save_docx sV c (pyStrip raw)).2 with _ | m
      · exfalso
        obtain ⟨a, b, d⟩ := (attemptWrites_none_iff env V2.save_docx sV c (pyStrip raw)).1 h
        rcases hany with hx | hx | hx <;> simp [a, b, d] at hx
      · exact ⟨m, rfl⟩
    have hwC : ∃ m, (attemptWrites env Cuda.save_docx sC c (pyStrip raw)).2 = some m := by
      rcases h : (attemptWrites env Cuda.save_docx sC c (pyStrip raw)).2 with _ | m
      · exfalso
        obtain ⟨a, b, d⟩ := (attemptWrites_none_iff env Cuda.save_docx sC c (pyStrip raw)).1 h
        rcases hany with hx | hx | hx <;> simp [a, b, d] at hx
      · exact ⟨m, rfl⟩
    obtain ⟨mV, hmV⟩ := hwV
    obtain ⟨mC, hmC⟩ := hwC
    rw [v2_step_eligible env s c h1 h2, ← hsV,
        v2_processOne_ok_fail env sV c raw mV h4 hmV]
    rw [cuda_step_eligible env s c hskip h3, ← hsC,
        cuda_processOne_ok_fail env sC c raw mC h4 hmC]
    obtain ⟨faV, fbV, _, _, _, _, _, _, _, _⟩ :=
      attemptWrites_frame env V2.save_docx sV c (pyStrip raw)
    obtain ⟨faC, _, _, _, _, _, _, _, _, _⟩ :=
      attemptWrites_frame env Cuda.save_docx sC c (pyStrip raw)
    unfold V2.failLog Cuda.failLog
    refine ⟨by simpa using faV, by simpa using fbV, ?_, by simpa using faC⟩
    obtain ⟨_, _, _, _, _, _, _, _, _, ffV⟩ :=
      attemptWrites_frame env V2.save_docx sV c (pyStrip raw)
    simpa using ffV
  · intro hnone
    have hwV : (attemptWrites env V2.save_docx sV c (pyStrip raw)).2 = none :=
      (attemptWrites_none_iff env V2.save_docx sV c (pyStrip raw)).2 hnone
    have hwC : (attemptWrites env Cuda.save_docx sC c (pyStrip raw)).2 = none :=
      (attemptWrites_none_iff env Cuda.save_docx sC c (pyStrip raw)).2 hnone
    rw [v2_step_eligible env s c h1 h2, ← hsV,
        v2_processOne_ok_succ env sV c raw h4 hwV]
    rw [cuda_step_eligible env s c hskip h3, ← hsC,
        cuda_processOne_ok_succ env sC c raw h4 hwC]
    obtain ⟨faV, fbV, _, _, _, _, _, _, _, _⟩ :=
      attemptWrites_frame env V2.save_docx sV c (pyStrip raw)
    obtain ⟨faC, _, _, _, _, _, _, _, _, _⟩ :=
      attemptWrites_frame env Cuda.save_docx sC c (pyStrip raw)
    have hcV := attemptWrites_calls_of_none env V2.save_docx sV c (pyStrip raw) hwV
    unfold V2.succLog Cuda.succLog
    refine ⟨by simpa using congrArg (fun l => l ++ [c.path]) faV, by simp, ?_,
            by simpa using congrArg (fun l => l ++ [c.path]) faC⟩
    simpa using hcV

/-- Claim C3, witness: the theorem applied at a concrete eligible file in
an environment whose pdf write raises, and (for the all-good conjunct) the
hypotheses of the failing disjunct vacuous. -/
def wEnvPdfFail : Env :=
  { transcribe := fun _ => Except.ok "hello world",
    writeFails := fun p => if p == "/r/a.pdf" then some "render error" else none,
    partialLeft := fun _ => false,
    successDetail := fun _ => "0.10 sec" }

/-- A disk holding only the source audio file. -/
def wDiskAudio : Disk := [("/r/a.mp3", FileContent.audio)]

theorem c3_record_only_after_writes_witness :
    ("/r/a.mp3" ∉ (V2.mkInit wDiskAudio [] [] []).processed ∧
      allArtifactsB wDiskAudio wCand = false ∧
      diskHas wDiskAudio wCand.path = true ∧
      wEnvPdfFail.transcribe wCand.path = Except.ok "hello world") ∧
    ((V2.step wEnvPdfFail (V2.mkInit wDiskAudio [] [] []) wCand).storeLines = [] ∧
      (V2.step wEnvPdfFail (V2.mkInit wDiskAudio [] [] []) wCand).processed =
        (V2.mkInit wDiskAudio [] [] []).processed ∧
      (V2.step wEnvPdfFail (V2.mkInit wDiskAudio [] [] []) wCand).failed = 0 + 1 ∧
      (Cuda.step wEnvPdfFail (V2.mkInit wDiskAudio [] [] []) wCand).storeLines = []) := by
  have h := c3_record_only_after_writes wEnvPdfFail (V2.mkInit wDiskAudio [] [] []) wCand
    "hello world" (by decide) (by decide) (by decide) rfl
  exact ⟨⟨by decide, by decide, by decide, rfl⟩,
    h.1 (Or.inr (Or.inr (by decide)))⟩

/-! Per-step and per-run lemmas about logs and counters. -/

lemma v2_step_logs (env : Env) (s : RunState) (c : Candidate) :
    (∃ t, (V2.step env s c).logSuccess = s.logSuccess ++ t) ∧
    (∃ t, (V2.step env s c).logError = s.logError ++ t) := by
  by_cases hm : c.path ∈ s.processed
  · rw [v2_step_mem env s c hm]
    exact ⟨⟨[], by simp⟩, ⟨[], by simp⟩⟩
  · cases ha : allArtifactsB s.disk c with
    | true =>
      rw [v2_step_promote env s c hm ha]
      unfold V2.promote
      exact ⟨⟨[], by simp⟩, ⟨[], by simp⟩⟩
    | false =>
      rw [v2_step_eligible env s c hm ha]
      set sV := ({ s with total := s.total + 1, transcribeCalls := s.transcribeCalls ++ [c.path] } : RunState) with hsV
      cases h3 : env.transcribe c.path with
      | error msg =>
        rw [v2_processOne_error env sV c msg h3]
        unfold V2.failLog
        exact ⟨⟨[], by simp⟩, ⟨[⟨c.path, msg⟩], by simp⟩⟩
      | ok raw =>
        obtain ⟨_, _, fc, fd, _, _, _, _, _, _⟩ :=
          attemptWrites_frame env V2.save_docx sV c (pyStrip raw)
        cases hw : (attemptWrites env V2.save_docx sV c (pyStrip raw)).2 with
        | some m =>
          rw [v2_processOne_ok_fail env sV c raw m h3 hw]
          unfold V2.failLog
          exact ⟨⟨[], by simp [fc]⟩, ⟨[⟨c.path, m⟩], by simp [fd]⟩⟩
        | none =>
          rw [v2_processOne_ok_succ env sV c raw h3 hw]
          unfold V2.succLog
          exact ⟨⟨[⟨c.path, env.successDetail c.path⟩], by simp [fc]⟩, ⟨[], by simp [fd]⟩⟩

lemma cuda_step_logs (env : Env) (s : RunState) (c : Candidate) :
    (∃ t, (Cuda.step env s c).logSuccess = s.logSuccess ++ t) ∧
    (∃ t, (Cuda.step env s c).logError = s.logError ++ t) := by
  by_cases hskip : c.path ∈ s.processed ∨ allArtifactsB s.disk c = true
  · rw [cuda_step_skip env s c hskip]
    exact ⟨⟨[], by simp⟩, ⟨[], by simp⟩⟩
  · cases hd : diskHas s.disk c.path with
    | false =>
      rw [cuda_step_notfound env s c hskip hd]
      exact ⟨⟨[], by simp⟩, ⟨[⟨c.path, "File not found"⟩], by simp⟩⟩
    | true =>
      rw [cuda_step_eligible env s c hskip hd]
      set sC := ({ s with transcribeCalls := s.transcribeCalls ++ [c.path] } : RunState) with hsC
      cases h3 : env.transcribe c.path with
      | error msg =>
        rw [cuda_processOne_error env sC c msg h3]
        unfold Cuda.failLog
        exact ⟨⟨[], by simp⟩, ⟨[⟨c.path, msg⟩], by simp⟩⟩
      | ok raw =>
        obtain ⟨_, _, fc, fd, _, _, _, _, _, _⟩ :=
          attemptWrites_frame env Cuda.save_docx sC c (pyStrip raw)
        cases hw : (attemptWrites env Cuda.save_docx sC c (pyStrip raw)).2 with
        | some m =>
          rw [cuda_processOne_ok_fail env sC c raw m h3 hw]
          unfold Cuda.failLog
          exact ⟨⟨[], by simp [fc]⟩, ⟨[⟨c.path, m⟩], by simp [fd]⟩⟩
        | none =>
          rw [cuda_processOne_ok_succ env sC c raw h3 hw]
          unfold Cuda.succLog
          exact ⟨⟨[⟨c.path, env.successDetail c.path⟩], by simp [fc]⟩, ⟨[], by simp [fd]⟩⟩

lemma v2_run_logs (env : Env) (cs : List Candidate) : ∀ s : RunState,
    (∃ t, (V2.transcribe_folder env s cs).logSuccess = s.logSuccess ++ t) ∧
    (∃ t, (V2.transcribe_folder env s cs).logError = s.logError ++ t) := by
  induction cs with
  | nil => intro s; exact ⟨⟨[], by simp [v2_run_nil]⟩, ⟨[], by simp [v2_run_nil]⟩⟩
  | cons c cs ih =>
    intro s
    rw [v2_run_cons]
    obtain ⟨⟨t1, h1⟩, ⟨t2, h2⟩⟩ := v2_step_logs env s c
    obtain ⟨⟨u1, g1⟩, ⟨u2, g2⟩⟩ := ih (V2.step env s c)
    exact ⟨⟨t1 ++ u1, by rw [g1, h1, List.append_assoc]⟩,
           ⟨t2 ++ u2, by rw [g2, h2, List.append_assoc]⟩⟩

lemma cuda_run_logs (env : Env) (cs : List Candidate) : ∀ s : RunState,
    (∃ t, (Cuda.main_loop env s cs).logSuccess = s.logSuccess ++ t) ∧
    (∃ t, (Cuda.main_loop env s cs).logError = s.logError ++ t) := by
  induction cs with
  | nil => intro s; exact ⟨⟨[], by simp [Cuda.main_loop]⟩, ⟨[], by simp [Cuda.main_loop]⟩⟩
  | cons c cs ih =>
    intro s
    rw [cuda_run_cons]
    obtain ⟨⟨t1, h1⟩, ⟨t2, h2⟩⟩ := cuda_step_logs env s c
    obtain ⟨⟨u1, g1⟩, ⟨u2, g2⟩⟩ := ih (Cuda.step env s c)
    exact ⟨⟨t1 ++ u1, by rw [g1, h1, List.append_assoc]⟩,
           ⟨t2 ++ u2, by rw [g2, h2, List.append_assoc]⟩⟩

/-- Claim C7: in both scripts every run leaves the success log and the
error log equal to their previous contents with zero or more lines appended
at the end; no pre-existing line is modified or removed. -/
theorem c7_logs_append_only (env : Env) (s : RunState) (cs : List Candidate) :
    (∃ t, (V2.transcribe_folder env s cs).logSuccess = s.logSuccess ++ t) ∧
    (∃ t, (V2.transcribe_folder env s cs).logError = s.logError ++ t) ∧
    (∃ t, (Cuda.main_loop env s cs).logSuccess = s.logSuccess ++ t) ∧
    (∃ t, (Cuda.main_loop env s cs).logError = s.logError ++ t) := by
  obtain ⟨a, b⟩ := v2_run_logs env cs s
  obtain ⟨d, e⟩ := cuda_run_logs env cs s
  exact ⟨a, b, d, e⟩

lemma v2_step_counters (env : Env) (s : RunState) (c : Candidate) :
    (V2.step env s c).total = s.total + 1 ∧
    (V2.step env s c).skippedProcessed + (V2.step env s c).skippedExisting +
        (V2.step env s c).succeeded + (V2.step env s c).failed =
      s.skippedProcessed + s.skippedExisting + s.succeeded + s.failed + 1 := by
  by_cases hm : c.path ∈ s.processed
  · rw [v2_step_mem env s c hm]
    constructor
    · rfl
    · simp only
      omega
  · cases ha : allArtifactsB s.disk c with
    | true =>
      rw [v2_step_promote env s c hm ha]
      unfold V2.promote
      constructor
      · rfl
      · simp only
        omega
    | false =>
      rw [v2_step_eligible env s c hm ha]
      set sV := ({ s with total := s.total + 1, transcribeCalls := s.transcribeCalls ++ [c.path] } : RunState) with hsV
      cases h3 : env.transcribe c.path with
      | error msg =>
        rw [v2_processOne_error env sV c msg h3]
        unfold V2.failLog
        constructor
        · rfl
        · simp only
          omega
      | ok raw =>
        obtain ⟨_, _, _, _, _, ft, fsp, fse, fsu, ff⟩ :=
          attemptWrites_frame env V2.save_docx sV c (pyStrip raw)
        cases hw : (attemptWrites env V2.save_docx sV c (pyStrip raw)).2 with
        | some m =>
          rw [v2_processOne_ok_fail env sV c raw m h3 hw]
          unfold V2.failLog
          constructor
          · simpa using ft
          · simp only [fsp, fse, fsu, ff, hsV]
            omega
        | none =>
          rw [v2_processOne_ok_succ env sV c raw h3 hw]
          unfold V2.succLog
          constructor
          · simpa using ft
          · simp only [fsp, fse, fsu, ff, hsV]
            omega

lemma v2_run_counters (env : Env) (cs : List Candidate) : ∀ s : RunState,
    (V2.transcribe_folder env s cs).total = s.total + cs.length ∧
    (V2.transcribe_folder env s cs).skippedProcessed +
        (V2.transcribe_folder env s cs).skippedExisting +
        (V2.transcribe_folder env s cs).succeeded +
        (V2.transcribe_folder env s cs).failed =
      s.skippedProcessed + s.skippedExisting + s.succeeded + s.failed + cs.length := by
  induction cs with
  | nil => intro s; simp [v2_run_nil]
  | cons c cs ih =>
    intro s
    rw [v2_run_cons]
    obtain ⟨h1, h2⟩ := v2_step_counters env s c
    obtain ⟨g1, g2⟩ := ih (V2.step env s c)
    constructor
    · rw [g1, h1]
      simp only [List.length_cons]
      omega
    · rw [g2, h2]
      simp only [List.length_cons]
      omega

/-- Claim C10: the summary counters of transcribe_folder satisfy
total = skipped_processed + skipped_existing + succeeded + failed: each
discovered candidate increments the total counter and exactly one of the
four outcome counters. -/
theorem c10_counter_invariant (env : Env) (s : RunState) (cs : List Candidate)
    (hinv : s.total = s.skippedProcessed + s.skippedExisting + s.succeeded + s.failed) :
    (V2.transcribe_folder env s cs).total = s.total + cs.length ∧
    (V2.transcribe_folder env s cs).total =
      (V2.transcribe_folder env s cs).skippedProcessed +
        (V2.transcribe_folder env s cs).skippedExisting +
        (V2.transcribe_folder env s cs).succeeded +
        (V2.transcribe_folder env s cs).failed ∧
    (∀ c : Candidate, (V2.step env s c).total = s.total + 1 ∧
      (V2.step env s c).skippedProcessed + (V2.step env s c).skippedExisting +
          (V2.step env s c).succeeded + (V2.step env s c).failed =
        s.skippedProcessed + s.skippedExisting + s.succeeded + s.failed + 1) := by
  obtain ⟨h1, h2⟩ := v2_run_counters env cs s
  refine ⟨h1, ?_, fun c => v2_step_counters env s c⟩
  rw [h1, h2, hinv]

/-- Claim C10, witness: the counter invariant at a concrete run from a
zeroed initial state. -/
theorem c10_counter_invariant_witness :
    ((V2.mkInit wDiskAudio [] [] []).total =
        (V2.mkInit wDiskAudio [] [] []).skippedProcessed +
          (V2.mkInit wDiskAudio [] [] []).skippedExisting +
          (V2.mkInit wDiskAudio [] [] []).succeeded +
          (V2.mkInit wDiskAudio [] [] []).failed) ∧
    ((V2.transcribe_folder wEnvOk (V2.mkInit wDiskAudio [] [] []) [wCand]).total =
        (V2.mkInit wDiskAudio [] [] []).total + [wCand].length ∧
      (V2.transcribe_folder wEnvOk (V2.mkInit wDiskAudio [] [] []) [wCand]).total =
        (V2.transcribe_folder wEnvOk (V2.mkInit wDiskAudio [] [] []) [wCand]).skippedProcessed +
          (V2.transcribe_folder wEnvOk (V2.mkInit wDiskAudio [] [] []) [wCand]).skippedExisting +
          (V2.transcribe_folder wEnvOk (V2.mkInit wDiskAudio [] [] []) [wCand]).succeeded +
          (V2.transcribe_folder wEnvOk (V2.mkInit wDiskAudio [] [] []) [wCand]).failed ∧
      (∀ c : Candidate,
        (V2.step wEnvOk (V2.mkInit wDiskAudio [] [] []) c).total =
          (V2.mkInit wDiskAudio [] [] []).total + 1 ∧
        (V2.step wEnvOk (V2.mkInit wDiskAudio [] [] []) c).skippedProcessed +
            (V2.step wEnvOk (V2.mkInit wDiskAudio [] [] []) c).skippedExisting +
            (V2.step wEnvOk (V2.mkInit wDiskAudio [] [] []) c).succeeded +
            (V2.step wEnvOk (V2.mkInit wDiskAudio [] [] []) c).failed =
          (V2.mkInit wDiskAudio [] [] []).skippedProcessed +
            (V2.mkInit wDiskAudio [] [] []).skippedExisting +
            (V2.mkInit wDiskAudio [] [] []).succeeded +
            (V2.mkInit wDiskAudio [] [] []).failed + 1)) :=
  ⟨by decide,
    c10_counter_invariant wEnvOk (V2.mkInit wDiskAudio [] [] []) [wCand] (by decide)⟩

/-- An environment whose Transcriber always fails. -/
def wEnvTrFail : Env :=
  { transcribe := fun _ => Except.error "decode failure",
    writeFails := fun _ => none,
    partialLeft := fun _ => false,
    successDetail := fun _ => "0.10 sec" }

/-- Claim C2: when the Transcriber (or any per-file step) raises for an
eligible file k, both scripts append exactly one ERROR entry naming k's
path to the error log and continue with the remaining files: the rest of
the batch is still folded over, every candidate still increments the total
counter, and the run never terminates because of k. -/
theorem c2_failure_isolation (env : Env) (s : RunState) (k : Candidate)
    (post : List Candidate) (msg : String)
    (h1 : k.path ∉ s.processed) (h2 : allArtifactsB s.disk k = false)
    (h3 : diskHas s.disk k.path = true)
    (h4 : env.transcribe k.path = Except.error msg) :
    V2.transcribe_folder env s (k :: post) =
      V2.transcribe_folder env (V2.step env s k) post ∧
    (V2.step env s k).logError = s.logError ++ [⟨k.path, msg⟩] ∧
    (V2.step env s k).failed = s.failed + 1 ∧
    (V2.transcribe_folder env s (k :: post)).total = s.total + 1 + post.length ∧
    Cuda.main_loop env s (k :: post) = Cuda.main_loop env (Cuda.step env s k) post ∧
    (Cuda.step env s k).logError = s.logError ++ [⟨k.path, msg⟩] := by
  have hskip : ¬(k.path ∈ s.processed ∨ allArtifactsB s.disk k = true) := by
    intro h
    rcases h with h | h
    · exact h1 h
    · rw [h2] at h
      exact Bool.false_ne_true h
  have hv := v2_step_eligible env s k h1 h2
  have hc := cuda_step_eligible env s k hskip h3
  refine ⟨rfl, ?_, ?_, ?_, rfl, ?_⟩
  · rw [hv, v2_processOne_error env _ k msg h4]
    unfold V2.failLog
    simp
  · rw [hv, v2_processOne_error env _ k msg h4]
    unfold V2.failLog
    simp
  · rw [v2_run_cons]
    obtain ⟨g1, _⟩ := v2_run_counters env post (V2.step env s k)
    obtain ⟨t1, _⟩ := v2_step_counters env s k
    rw [g1, t1]
  · rw [hc, cuda_processOne_error env _ k msg h4]
    unfold Cuda.failLog
    simp

/-- Claim C2, witness: a concrete two-file batch whose first file's
transcription fails; the error is logged and the second file is reached. -/
theorem c2_failure_isolation_witness :
    ("/r/a.mp3" ∉ (V2.mkInit wDiskAudio [] [] []).processed ∧
      allArtifactsB wDiskAudio wCand = false ∧
      diskHas wDiskAudio wCand.path = true ∧
      wEnvTrFail.transcribe wCand.path = Except.error "decode failure") ∧
    (V2.transcribe_folder wEnvTrFail (V2.mkInit wDiskAudio [] [] [])
        (wCand :: [⟨"/r/b.mp3", "/r/b.txt", "/r/b.docx", "/r/b.pdf"⟩]) =
      V2.transcribe_folder wEnvTrFail
        (V2.step wEnvTrFail (V2.mkInit wDiskAudio [] [] []) wCand)
        [⟨"/r/b.mp3", "/r/b.txt", "/r/b.docx", "/r/b.pdf"⟩] ∧
      (V2.step wEnvTrFail (V2.mkInit wDiskAudio [] [] []) wCand).logError =
        (V2.mkInit wDiskAudio [] [] []).logError ++ [⟨wCand.path, "decode failure"⟩] ∧
      (V2.step wEnvTrFail (V2.mkInit wDiskAudio [] [] []) wCand).failed =
        (V2.mkInit wDiskAudio [] [] []).failed + 1 ∧
      (V2.transcribe_folder wEnvTrFail (V2.mkInit wDiskAudio [] [] [])
          (wCand :: [⟨"/r/b.mp3", "/r/b.txt", "/r/b.docx", "/r/b.pdf"⟩])).total =
        (V2.mkInit wDiskAudio [] [] []).total + 1 +
          [(⟨"/r/b.mp3", "/r/b.txt", "/r/b.docx", "/r/b.pdf"⟩ : Candidate)].length ∧
      Cuda.main_loop wEnvTrFail (V2.mkInit wDiskAudio [] [] [])
          (wCand :: [⟨"/r/b.mp3", "/r/b.txt", "/r/b.docx", "/r/b.pdf"⟩]) =
        Cuda.main_loop wEnvTrFail
          (Cuda.step wEnvTrFail (V2.mkInit wDiskAudio [] [] []) wCand)
          [⟨"/r/b.mp3", "/r/b.txt", "/r/b.docx", "/r/b.pdf"⟩] ∧
      (Cuda.step wEnvTrFail (V2.mkInit wDiskAudio [] [] []) wCand).logError =
        (V2.mkInit wDiskAudio [] [] []).logError ++ [⟨wCand.path, "decode failure"⟩]) :=
  ⟨⟨by decide, by decide, by decide, rfl⟩,
    c2_failure_isolation wEnvTrFail (V2.mkInit wDiskAudio [] [] []) wCand
      [⟨"/r/b.mp3", "/r/b.txt", "/r/b.docx", "/r/b.pdf"⟩] "decode failure"
      (by decide) (by decide) (by decide) rfl⟩

/-! Loader membership characterizations. -/

lemma mem_load_processed_set (lines : List String) (q : String) :
    q ∈ load_processed_set lines ↔ (∃ ln ∈ lines, pyStrip ln = q) ∧ q ≠ "" := by
  unfold load_processed_set
  simp only [List.mem_toFinset, List.mem_filter, List.mem_map, Bool.not_eq_true',
    beq_eq_false_iff_ne, ne_eq]

lemma mem_load_processed_files (lines : List String) (q : String) :
    q ∈ load_processed_files lines ↔ q ∈ lines := by
  unfold load_processed_files
  exact List.mem_toFinset

/-- Claim C4: loading the processed-list file is total over any list of
lines and yields a membership set: appending a duplicate line for an
already-present path leaves both loaders' sets unchanged (duplicates
collapse to one membership), and a malformed/truncated trailing line does
not cause a load failure — it merely contributes at most its own (stripped)
membership, leaving every other membership intact. -/
theorem c4_load_total_and_collapsing (lines : List String) (torn p : String)
    (hp : p ∈ lines) :
    load_processed_set (lines ++ [p]) = load_processed_set lines ∧
    load_processed_files (lines ++ [p]) = load_processed_files lines ∧
    (∀ q, q ∈ load_processed_set (lines ++ [torn]) ↔
        (q ∈ load_processed_set lines ∨ (q = pyStrip torn ∧ q ≠ ""))) ∧
    (∀ q, q ∈ load_processed_files (lines ++ [torn]) ↔
        (q ∈ load_processed_files lines ∨ q = torn)) := by
  refine ⟨?_, ?_, ?_, ?_⟩
  · apply Finset.ext
    intro q
    simp only [mem_load_processed_set, List.mem_append, List.mem_singleton]
    constructor
    · rintro ⟨⟨ln, hln | heq, hs⟩, hq⟩
      · exact ⟨⟨ln, hln, hs⟩, hq⟩
      · exact ⟨⟨ln, by rw [heq]; exact hp, hs⟩, hq⟩
    · rintro ⟨⟨ln, hln, hs⟩, hq⟩
      exact ⟨⟨ln, Or.inl hln, hs⟩, hq⟩
  · apply Finset.ext
    intro q
    simp only [mem_load_processed_files, List.mem_append, List.mem_singleton]
    constructor
    · rintro (h | heq)
      · exact h
      · rw [heq]; exact hp
    · exact Or.inl
  · intro q
    simp only [mem_load_processed_set, List.mem_append, List.mem_singleton]
    constructor
    · rintro ⟨⟨ln, hln | heq, hs⟩, hq⟩
      · exact Or.inl ⟨⟨ln, hln, hs⟩, hq⟩
      · exact Or.inr ⟨by rw [← hs, heq], hq⟩
    · rintro (⟨⟨ln, hln, hs⟩, hq⟩ | ⟨hqe, hq⟩)
      · exact ⟨⟨ln, Or.inl hln, hs⟩, hq⟩
      · exact ⟨⟨torn, Or.inr rfl, hqe.symm⟩, hq⟩
  · intro q
    simp only [mem_load_processed_files, List.mem_append, List.mem_singleton]

/-- Claim C4, witness: the loader facts at a concrete store file holding a
duplicate path and a torn trailing fragment. -/
theorem c4_load_total_and_collapsing_witness :
    "/r/a.mp3" ∈ ["/r/a.mp3", "/r/b.mp3"] ∧
    (load_processed_set (["/r/a.mp3", "/r/b.mp3"] ++ ["/r/a.mp3"]) =
        load_processed_set ["/r/a.mp3", "/r/b.mp3"] ∧
      load_processed_files (["/r/a.mp3", "/r/b.mp3"] ++ ["/r/a.mp3"]) =
        load_processed_files ["/r/a.mp3", "/r/b.mp3"] ∧
      (∀ q, q ∈ load_processed_set (["/r/a.mp3", "/r/b.mp3"] ++ ["/r/c.m"]) ↔
          (q ∈ load_processed_set ["/r/a.mp3", "/r/b.mp3"] ∨
            (q = pyStrip "/r/c.m" ∧ q ≠ ""))) ∧
      (∀ q, q ∈ load_processed_files (["/r/a.mp3", "/r/b.mp3"] ++ ["/r/c.m"]) ↔
          (q ∈ load_processed_files ["/r/a.mp3", "/r/b.mp3"] ∨ q = "/r/c.m"))) :=
  ⟨by decide,
    c4_load_total_and_collapsing ["/r/a.mp3", "/r/b.mp3"] "/r/c.m" "/r/a.mp3" (by decide)⟩

/-! Discovery. -/

lemma list_any_map {α β : Type} (f : α → β) (p : β → Bool) (l : List α) :
    (l.map f).any p = l.any (fun a => p (f a)) := by
  induction l with
  | nil => rfl
  | cons a t ih => simp [ih]

/-- Claim C9: discovery yields exactly the walked filenames whose name
matches an allowed extension; the match is case-insensitive in both the
filename and the allow-list (replacing either by any same-lowering variant
changes nothing), a filename matches precisely when some allowed extension
is a suffix of it under lowering, and the cuda script's hard-wired filter
coincides with the case-insensitive filter on its built-in list.  Discovery
is a pure function of the tree (it performs no writes by construction). -/
theorem c9_discovery_filter (tree : DirTree) (exts exts2 : List String) (f g : String)
    (hf : pyLower f = pyLower g)
    (he : exts.map pyLower = exts2.map pyLower) :
    (f ∈ discover exts tree ↔ f ∈ walkFiles tree ∧ matchesExt exts f = true) ∧
    matchesExt exts f = matchesExt exts2 g ∧
    (matchesExt exts f = true ↔ ∃ e ∈ exts, pyEndsWith (pyLower f) (pyLower e) = true) ∧
    (∀ name : String, matchesExtCuda name = matchesExt SUPPORTED_EXT name) := by
  refine ⟨?_, ?_, ?_, ?_⟩
  · unfold discover
    exact List.mem_filter
  · unfold matchesExt
    calc exts.any (fun e => pyEndsWith (pyLower f) (pyLower e))
        = (exts.map pyLower).any (fun e => pyEndsWith (pyLower f) e) :=
          (list_any_map pyLower _ exts).symm
      _ = (exts2.map pyLower).any (fun e => pyEndsWith (pyLower f) e) := by rw [he]
      _ = exts2.any (fun e => pyEndsWith (pyLower f) (pyLower e)) :=
          list_any_map pyLower _ exts2
      _ = exts2.any (fun e => pyEndsWith (pyLower g) (pyLower e)) := by rw [hf]
  · unfold matchesExt
    exact List.any_eq_true
  · intro name
    unfold matchesExtCuda matchesExt
    have hm : SUPPORTED_EXT.map pyLower = SUPPORTED_EXT := by decide
    calc SUPPORTED_EXT.any (fun e => pyEndsWith (pyLower name) e)
        = (SUPPORTED_EXT.map pyLower).any (fun e => pyEndsWith (pyLower name) e) := by
          rw [hm]
      _ = SUPPORTED_EXT.any (fun e => pyEndsWith (pyLower name) (pyLower e)) :=
          list_any_map pyLower _ SUPPORTED_EXT

/-- Claim C9, witness: discovery over a concrete two-level tree with a
mixed-case filename and allow-list. -/
theorem c9_discovery_filter_witness :
    (pyLower "a.MP3" = pyLower "A.mp3" ∧
      [".MP3"].map pyLower = [".mp3"].map pyLower) ∧
    (("a.MP3" ∈ discover [".MP3"] (DirTree.node ["a.MP3", "notes.txt"]
          [DirTree.node ["b.wav"] []]) ↔
        "a.MP3" ∈ walkFiles (DirTree.node ["a.MP3", "notes.txt"]
          [DirTree.node ["b.wav"] []]) ∧ matchesExt [".MP3"] "a.MP3" = true) ∧
      matchesExt [".MP3"] "a.MP3" = matchesExt [".mp3"] "A.mp3" ∧
      (matchesExt [".MP3"] "a.MP3" = true ↔
        ∃ e ∈ [".MP3"], pyEndsWith (pyLower "a.MP3") (pyLower e) = true) ∧
      (∀ name : String, matchesExtCuda name = matchesExt SUPPORTED_EXT name)) :=
  ⟨⟨by decide, by decide⟩,
    c9_discovery_filter (DirTree.node ["a.MP3", "notes.txt"] [DirTree.node ["b.wav"] []])
      [".MP3"] [".mp3"] "a.MP3" "A.mp3" (by decide) (by decide)⟩

/-! Step effects bounds, used for the resumability and idempotence claims. -/

lemma allArtifactsB_false (d : Disk) (c : Candidate) :
    allArtifactsB d c = false ↔
      diskHas d c.txtPath = false ∨ diskHas d c.docxPath = false ∨
        diskHas d c.pdfPath = false := by
  unfold allArtifactsB
  cases diskHas d c.txtPath <;> cases diskHas d c.docxPath <;>
    cases diskHas d c.pdfPath <;> simp

lemma v2_step_effects (env : Env) (s : RunState) (c : Candidate) :
    (∀ p, p ∈ s.processed → p ∈ (V2.step env s c).processed) ∧
    (∀ p, p ∈ (V2.step env s c).processed → p ∈ s.processed ∨ p = c.path) ∧
    (∀ q, diskHas (V2.step env s c).disk q = true →
        diskHas s.disk q = true ∨ q ∈ artifactPaths c) ∧
    (∀ q, q ∈ (V2.step env s c).writeCalls → q ∈ s.writeCalls ∨ q ∈ artifactPaths c) ∧
    (∀ q, q ∈ (V2.step env s c).storeLines → q ∈ s.storeLines ∨ q = c.path) := by
  by_cases hm : c.path ∈ s.processed
  · rw [v2_step_mem env s c hm]
    exact ⟨fun p hp => hp, fun p hp => Or.inl hp, fun q hq => Or.inl hq,
           fun q hq => Or.inl hq, fun q hq => Or.inl hq⟩
  · cases ha : allArtifactsB s.disk c with
    | true =>
      rw [v2_step_promote env s c hm ha]
      unfold V2.promote
      refine ⟨?_, ?_, fun q hq => Or.inl hq, fun q hq => Or.inl hq, ?_⟩
      · intro p hp
        simp only [Finset.mem_insert]
        exact Or.inr hp
      · intro p hp
        simp only [Finset.mem_insert] at hp
        exact hp.symm
      · intro q hq
        simp only [List.mem_append, List.mem_singleton] at hq
        exact hq
    | false =>
      rw [v2_step_eligible env s c hm ha]
      set sV := ({ s with total := s.total + 1, transcribeCalls := s.transcribeCalls ++ [c.path] } : RunState) with hsV
      cases h3 : env.transcribe c.path with
      | error msg =>
        rw [v2_processOne_error env sV c msg h3]
        unfold V2.failLog
        exact ⟨fun p hp => hp, fun p hp => Or.inl hp, fun q hq => Or.inl hq,
               fun q hq => Or.inl hq, fun q hq => Or.inl hq⟩
      | ok raw =>
        obtain ⟨fst, fpr, _, _, _, _, _, _, _, _⟩ :=
          attemptWrites_frame env V2.save_docx sV c (pyStrip raw)
        cases hw : (attemptWrites env V2.save_docx sV c (pyStrip raw)).2 with
        | some m =>
          rw [v2_processOne_ok_fail env sV c raw m h3 hw]
          unfold V2.failLog
          refine ⟨?_, ?_, ?_, ?_, ?_⟩
          · intro p hp
            simp only [fpr]
            exact hp
          · intro p hp
            simp only [fpr] at hp
            exact Or.inl hp
          · intro q hq
            exact attemptWrites_disk_imp env V2.save_docx sV c (pyStrip raw) q hq
          · intro q hq
            exact attemptWrites_writeCalls_imp env V2.save_docx sV c (pyStrip raw) q hq
          · intro q hq
            simp only [fst] at hq
            exact Or.inl hq
        | none =>
          rw [v2_processOne_ok_succ env sV c raw h3 hw]
          unfold V2.succLog
          refine ⟨?_, ?_, ?_, ?_, ?_⟩
          · intro p hp
            simp only [Finset.mem_insert, fpr]
            exact Or.inr hp
          · intro p hp
            simp only [Finset.mem_insert, fpr] at hp
            exact hp.symm
          · intro q hq
            exact attemptWrites_disk_imp env V2.save_docx sV c (pyStrip raw) q hq
          · intro q hq
            exact attemptWrites_writeCalls_imp env V2.save_docx sV c (pyStrip raw) q hq
          · intro q hq
            simp only [List.mem_append, List.mem_singleton, fst] at hq
            exact hq

lemma v2_step_eligible_calls (env : Env) (s : RunState) (c : Candidate)
    (hm : c.path ∉ s.processed) (ha : allArtifactsB s.disk c = false) :
    (V2.step env s c).transcribeCalls = s.transcribeCalls ++ [c.path] ∧
    (V2.step env s c).skippedProcessed = s.skippedProcessed := by
  rw [v2_step_eligible env s c hm ha]
  set sV := ({ s with total := s.total + 1, transcribeCalls := s.transcribeCalls ++ [c.path] } : RunState) with hsV
  cases h3 : env.transcribe c.path with
  | error msg =>
    rw [v2_processOne_error env sV c msg h3]
    unfold V2.failLog
    exact ⟨rfl, rfl⟩
  | ok raw =>
    obtain ⟨_, _, _, _, ftc, _, fsp, _, _, _⟩ :=
      attemptWrites_frame env V2.save_docx sV c (pyStrip raw)
    cases hw : (attemptWrites env V2.save_docx sV c (pyStrip raw)).2 with
    | some m =>
      rw [v2_processOne_ok_fail env sV c raw m h3 hw]
      unfold V2.failLog
      exact ⟨by simp only [ftc, hsV], by simp only [fsp, hsV]⟩
    | none =>
      rw [v2_processOne_ok_succ env sV c raw h3 hw]
      unfold V2.succLog
      exact ⟨by simp only [ftc, hsV], by simp only [fsp, hsV]⟩

lemma list_filter_congr {α : Type} (p q : α → Bool) (l : List α)
    (h : ∀ a ∈ l, p a = q a) : l.filter p = l.filter q := by
  induction l with
  | nil => rfl
  | cons a t ih =>
    simp only [List.filter_cons, h a (List.mem_cons_self a t)]
    rw [ih (fun b hb => h b (List.mem_cons_of_mem a hb))]

lemma v2_run_resumable (env : Env) (cs : List Candidate) : ∀ s : RunState,
    (∀ c ∈ cs, c.path ∉ s.processed → allArtifactsB s.disk c = false) →
    ((cs.map (fun c => c.path)).Nodup) →
    (∀ c ∈ cs, ∀ d ∈ cs, c.path ≠ d.path → ∀ q ∈ artifactPaths c, q ∉ artifactPaths d) →
    (V2.transcribe_folder env s cs).transcribeCalls =
      s.transcribeCalls ++
        (cs.filter (fun c => !(decide (c.path ∈ s.processed)))).map (fun c => c.path) ∧
    (V2.transcribe_folder env s cs).skippedProcessed =
      s.skippedProcessed + (cs.filter (fun c => decide (c.path ∈ s.processed))).length ∧
    (∀ q, q ∈ (V2.transcribe_folder env s cs).writeCalls →
      q ∈ s.writeCalls ∨ ∃ c, c ∈ cs ∧ c.path ∉ s.processed ∧ q ∈ artifactPaths c) ∧
    (∀ q, q ∈ (V2.transcribe_folder env s cs).storeLines →
      q ∈ s.storeLines ∨ ∃ c, c ∈ cs ∧ c.path ∉ s.processed ∧ q = c.path) := by
  induction cs with
  | nil =>
    intro s _ _ _
    rw [v2_run_nil]
    exact ⟨by simp, by simp, fun q hq => Or.inl hq, fun q hq => Or.inl hq⟩
  | cons c rest ih =>
    intro s hart hnodup hdisj
    rw [v2_run_cons]
    obtain ⟨emono, esub, edisk, ewc, est⟩ := v2_step_effects env s c
    have hn := hnodup
    rw [List.map_cons, List.nodup_cons] at hn
    obtain ⟨hcnotin, hnodup2⟩ := hn
    have hmemeq : ∀ d ∈ rest, (d.path ∈ (V2.step env s c).processed ↔ d.path ∈ s.processed) := by
      intro d hd
      constructor
      · intro h
        rcases esub d.path h with h1 | h1
        · exact h1
        · exfalso
          apply hcnotin
          rw [← h1]
          exact List.mem_map_of_mem _ hd
      · exact emono d.path
    have hart2 : ∀ d ∈ rest, d.path ∉ (V2.step env s c).processed →
        allArtifactsB (V2.step env s c).disk d = false := by
      intro d hd hdp
      have hdp0 : d.path ∉ s.processed := fun hc => hdp (emono d.path hc)
      have h0 : allArtifactsB s.disk d = false := hart d (List.mem_cons_of_mem c hd) hdp0
      have hdc : c.path ≠ d.path := by
        intro he
        apply hcnotin
        rw [he]
        exact List.mem_map_of_mem _ hd
      have hkeep : ∀ q ∈ artifactPaths d, diskHas s.disk q = false →
          diskHas (V2.step env s c).disk q = false := by
        intro q hqd hq0
        cases hq1 : diskHas (V2.step env s c).disk q with
        | false => rfl
        | true =>
          exfalso
          rcases edisk q hq1 with h1 | h1
          · rw [hq0] at h1
            exact Bool.false_ne_true h1
          · exact hdisj c (List.mem_cons_self c rest) d (List.mem_cons_of_mem c hd)
              hdc q h1 hqd
      rcases (allArtifactsB_false s.disk d).1 h0 with hq | hq | hq
      · exact (allArtifactsB_false _ d).2
          (Or.inl (hkeep d.txtPath (by simp [artifactPaths]) hq))
      · exact (allArtifactsB_false _ d).2
          (Or.inr (Or.inl (hkeep d.docxPath (by simp [artifactPaths]) hq)))
      · exact (allArtifactsB_false _ d).2
          (Or.inr (Or.inr (hkeep d.pdfPath (by simp [artifactPaths]) hq)))
    have hdisj2 : ∀ c1 ∈ rest, ∀ d1 ∈ rest, c1.path ≠ d1.path →
        ∀ q ∈ artifactPaths c1, q ∉ artifactPaths d1 := fun c1 h1 d1 h2 =>
      hdisj c1 (List.mem_cons_of_mem c h1) d1 (List.mem_cons_of_mem c h2)
    obtain ⟨ih1, ih2, ih3, ih4⟩ := ih (V2.step env s c) hart2 hnodup2 hdisj2
    have hfg1 : rest.filter (fun d => !(decide (d.path ∈ (V2.step env s c).processed))) =
        rest.filter (fun d => !(decide (d.path ∈ s.processed))) := by
      apply list_filter_congr
      intro d hd
      by_cases hdd : d.path ∈ s.processed
      · simp [hdd, (hmemeq d hd).2 hdd]
      · have hnd : d.path ∉ (V2.step env s c).processed := fun hc => hdd ((hmemeq d hd).1 hc)
        simp [hdd, hnd]
    have hfg2 : rest.filter (fun d => decide (d.path ∈ (V2.step env s c).processed)) =
        rest.filter (fun d => decide (d.path ∈ s.processed)) := by
      apply list_filter_congr
      intro d hd
      by_cases hdd : d.path ∈ s.processed
      · simp [hdd, (hmemeq d hd).2 hdd]
      · have hnd : d.path ∉ (V2.step env s c).processed := fun hc => hdd ((hmemeq d hd).1 hc)
        simp [hdd, hnd]
    rw [hfg1] at ih1
    rw [hfg2] at ih2
    by_cases hm : c.path ∈ s.processed
    · have hstep := v2_step_mem env s c hm
      refine ⟨?_, ?_, ?_, ?_⟩
      · rw [ih1, hstep]
        simp only [List.filter_cons, hm, decide_True, Bool.not_true, Bool.false_eq_true,
          if_false]
      · rw [ih2, hstep]
        simp only [List.filter_cons, hm, decide_True, if_true, List.length_cons]
        omega
      · intro q hq
        rcases ih3 q hq with h1 | ⟨d, hd, hdp, hqa⟩
        · rw [hstep] at h1
          exact Or.inl h1
        · refine Or.inr ⟨d, List.mem_cons_of_mem c hd, ?_, hqa⟩
          exact fun hc => hdp (emono d.path hc)
      · intro q hq
        rcases ih4 q hq with h1 | ⟨d, hd, hdp, hqa⟩
        · rw [hstep] at h1
          exact Or.inl h1
        · refine Or.inr ⟨d, List.mem_cons_of_mem c hd, ?_, hqa⟩
          exact fun hc => hdp (emono d.path hc)
    · have ha : allArtifactsB s.disk c = false := hart c (List.mem_cons_self c rest) hm
      obtain ⟨htrc, hsp⟩ := v2_step_eligible_calls env s c hm ha
      refine ⟨?_, ?_, ?_, ?_⟩
      · rw [ih1, htrc]
        simp only [List.filter_cons, hm, decide_False, Bool.not_false, if_true,
          List.map_cons, List.append_assoc, List.singleton_append]
      · rw [ih2, hsp]
        simp only [List.filter_cons, hm, decide_False, Bool.false_eq_true, if_false]
      · intro q hq
        rcases ih3 q hq with h1 | ⟨d, hd, hdp, hqa⟩
        · rcases ewc q h1 with h2 | h2
          · exact Or.inl h2
          · exact Or.inr ⟨c, List.mem_cons_self c rest, hm, h2⟩
        · refine Or.inr ⟨d, List.mem_cons_of_mem c hd, ?_, hqa⟩
          exact fun hc => hdp (emono d.path hc)
      · intro q hq
        rcases ih4 q hq with h1 | ⟨d, hd, hdp, hqa⟩
        · rcases est q h1 with h2 | h2
          · exact Or.inl h2
          · exact Or.inr ⟨c, List.mem_cons_self c rest, hm, h2⟩
        · refine Or.inr ⟨d, List.mem_cons_of_mem c hd, ?_, hqa⟩
          exact fun hc => hdp (emono d.path hc)

/-- Claim C5, counterexample: a single discovered file (M = 1) that is not
in the state store (N = 0) but whose three artifacts already exist is
skipped by transcribe_folder: the run performs zero Transcriber and zero
Writer invocations, not the M − N = 1 the claim demands. -/
theorem c5_counterexample :
    "/r/a.mp3" ∉ load_processed_set [] ∧
    allArtifactsB wDiskFull wCand = true ∧
    (V2.transcribe_folder wEnvOk (V2.mkInit wDiskFull [] [] []) [wCand]).transcribeCalls
      = [] ∧
    (V2.transcribe_folder wEnvOk (V2.mkInit wDiskFull [] [] []) [wCand]).writeCalls
      = [] ∧
    ([wCand].length - 0 = 1) := by
  refine ⟨by decide, by decide, by decide, by decide, by decide⟩

/-- Claim C5 (amended): provided no candidate that is absent from the store
has all three artifacts pre-existing on disk, candidate paths are pairwise
distinct, and distinct candidates' artifact paths do not alias, a run of
transcribe_folder invokes the Transcriber for exactly the files not in the
store at load time, in traversal order (so exactly M − N calls when N of
the M candidates are recorded); each recorded file is skipped, counted
once in skipped_processed, and contributes no write call and no store
append; every write call and store append belongs to some unrecorded
candidate. -/
theorem c5_amended (env : Env) (s : RunState) (cs : List Candidate)
    (hart : ∀ c ∈ cs, c.path ∉ s.processed → allArtifactsB s.disk c = false)
    (hnodup : (cs.map (fun c => c.path)).Nodup)
    (hdisj : ∀ c ∈ cs, ∀ d ∈ cs, c.path ≠ d.path →
        ∀ q ∈ artifactPaths c, q ∉ artifactPaths d) :
    (V2.transcribe_folder env s cs).transcribeCalls =
      s.transcribeCalls ++
        (cs.filter (fun c => !(decide (c.path ∈ s.processed)))).map (fun c => c.path) ∧
    (V2.transcribe_folder env s cs).transcribeCalls.length =
      s.transcribeCalls.length +
        (cs.filter (fun c => !(decide (c.path ∈ s.processed)))).length ∧
    (V2.transcribe_folder env s cs).skippedProcessed =
      s.skippedProcessed + (cs.filter (fun c => decide (c.path ∈ s.processed))).length ∧
    (∀ q, q ∈ (V2.transcribe_folder env s cs).writeCalls →
      q ∈ s.writeCalls ∨ ∃ c, c ∈ cs ∧ c.path ∉ s.processed ∧ q ∈ artifactPaths c) ∧
    (∀ q, q ∈ (V2.transcribe_folder env s cs).storeLines →
      q ∈ s.storeLines ∨ ∃ c, c ∈ cs ∧ c.path ∉ s.processed ∧ q = c.path) := by
  obtain ⟨h1, h2, h3, h4⟩ := v2_run_resumable env cs s hart hnodup hdisj
  refine ⟨h1, ?_, h2, h3, h4⟩
  rw [h1]
  simp [List.length_append, List.length_map]

/-- A second candidate file for multi-file scenarios. -/
def wCandB : Candidate := ⟨"/r/b.mp3", "/r/b.txt", "/r/b.docx", "/r/b.pdf"⟩

/-- A disk holding the two source audio files and no artifacts. -/
def wDisk2 : Disk :=
  [("/r/a.mp3", FileContent.audio), ("/r/b.mp3", FileContent.audio)]

/-- An initial state whose store already records the first file. -/
def wInitN : RunState := V2.mkInit wDisk2 ["/r/a.mp3"] [] []

/-- Claim C5, witness: two candidates, one already recorded; the amended
theorem applied there shows the Transcriber is invoked exactly for the one
unrecorded file. -/
theorem c5_amended_witness :
    ((∀ c ∈ [wCand, wCandB], c.path ∉ wInitN.processed →
        allArtifactsB wInitN.disk c = false) ∧
      (([wCand, wCandB].map (fun c => c.path)).Nodup) ∧
      (∀ c ∈ [wCand, wCandB], ∀ d ∈ [wCand, wCandB], c.path ≠ d.path →
        ∀ q ∈ artifactPaths c, q ∉ artifactPaths d)) ∧
    (V2.transcribe_folder wEnvOk wInitN [wCand, wCandB]).transcribeCalls =
      wInitN.transcribeCalls ++
        (([wCand, wCandB].filter
            (fun c => !(decide (c.path ∈ wInitN.processed)))).map (fun c => c.path)) ∧
    (V2.transcribe_folder wEnvOk wInitN [wCand, wCandB]).skippedProcessed =
      wInitN.skippedProcessed +
        ([wCand, wCandB].filter (fun c => decide (c.path ∈ wInitN.processed))).length :=
  ⟨⟨by decide, by decide, by decide⟩,
    (c5_amended wEnvOk wInitN [wCand, wCandB] (by decide) (by decide) (by decide)).1,
    (c5_amended wEnvOk wInitN [wCand, wCandB] (by decide) (by decide) (by decide)).2.2.1⟩

/-! Lemmas for the idempotence claim. -/

lemma v2_step_failed_mono (env : Env) (s : RunState) (c : Candidate) :
    s.failed ≤ (V2.step env s c).failed := by
  by_cases hm : c.path ∈ s.processed
  · rw [v2_step_mem env s c hm]
  · cases ha : allArtifactsB s.disk c with
    | true =>
      rw [v2_step_promote env s c hm ha]
      unfold V2.promote
      exact Nat.le_refl _
    | false =>
      rw [v2_step_eligible env s c hm ha]
      set sV := ({ s with total := s.total + 1, transcribeCalls := s.transcribeCalls ++ [c.path] } : RunState) with hsV
      cases h3 : env.transcribe c.path with
      | error msg =>
        rw [v2_processOne_error env sV c msg h3]
        unfold V2.failLog
        exact Nat.le_succ _
      | ok raw =>
        obtain ⟨_, _, _, _, _, _, _, _, _, ff⟩ :=
          attemptWrites_frame env V2.save_docx sV c (pyStrip raw)
        cases hw : (attemptWrites env V2.save_docx sV c (pyStrip raw)).2 with
        | some m =>
          rw [v2_processOne_ok_fail env sV c raw m h3 hw]
          unfold V2.failLog
          simp only [ff, hsV]
          omega
        | none =>
          rw [v2_processOne_ok_succ env sV c raw h3 hw]
          unfold V2.succLog
          simp only [ff, hsV]
          omega

lemma v2_step_recorded_of_failed_eq (env : Env) (s : RunState) (c : Candidate)
    (h : (V2.step env s c).failed = s.failed) :
    c.path ∈ (V2.step env s c).processed := by
  by_cases hm : c.path ∈ s.processed
  · rw [v2_step_mem env s c hm]
    exact hm
  · cases ha : allArtifactsB s.disk c with
    | true =>
      rw [v2_step_promote env s c hm ha]
      unfold V2.promote
      simp
    | false =>
      rw [v2_step_eligible env s c hm ha] at h ⊢
      set sV := ({ s with total := s.total + 1, transcribeCalls := s.transcribeCalls ++ [c.path] } : RunState) with hsV
      cases h3 : env.transcribe c.path with
      | error msg =>
        rw [v2_processOne_error env sV c msg h3] at h
        unfold V2.failLog at h
        simp only [hsV] at h
        omega
      | ok raw =>
        obtain ⟨_, _, _, _, _, _, _, _, _, ff⟩ :=
          attemptWrites_frame env V2.save_docx sV c (pyStrip raw)
        cases hw : (attemptWrites env V2.save_docx sV c (pyStrip raw)).2 with
        | some m =>
          exfalso
          rw [v2_processOne_ok_fail env sV c raw m h3 hw] at h
          unfold V2.failLog at h
          simp only [ff, hsV] at h
          omega
        | none =>
          rw [v2_processOne_ok_succ env sV c raw h3 hw]
          unfold V2.succLog
          simp

lemma v2_run_failed_mono (env : Env) (cs : List Candidate) : ∀ s : RunState,
    s.failed ≤ (V2.transcribe_folder env s cs).failed := by
  induction cs with
  | nil => intro s; rw [v2_run_nil]
  | cons c rest ih =>
    intro s
    rw [v2_run_cons]
    exact Nat.le_trans (v2_step_failed_mono env s c) (ih (V2.step env s c))

lemma v2_run_processed_mono (env : Env) (cs : List Candidate) : ∀ s : RunState,
    ∀ p ∈ s.processed, p ∈ (V2.transcribe_folder env s cs).processed := by
  induction cs with
  | nil => intro s p hp; rw [v2_run_nil]; exact hp
  | cons c rest ih =>
    intro s p hp
    rw [v2_run_cons]
    exact ih (V2.step env s c) p ((v2_step_effects env s c).1 p hp)

lemma v2_run_all_recorded (env : Env) (cs : List Candidate) : ∀ s : RunState,
    (V2.transcribe_folder env s cs).failed = s.failed →
    ∀ c ∈ cs, c.path ∈ (V2.transcribe_folder env s cs).processed := by
  induction cs with
  | nil => intro s _ c hc; exact absurd hc (List.not_mem_nil c)
  | cons c rest ih =>
    intro s hf d hd
    rw [v2_run_cons] at hf ⊢
    have h1 : s.failed ≤ (V2.step env s c).failed := v2_step_failed_mono env s c
    have h2 : (V2.step env s c).failed ≤
        (V2.transcribe_folder env (V2.step env s c) rest).failed :=
      v2_run_failed_mono env rest (V2.step env s c)
    have hstepf : (V2.step env s c).failed = s.failed := by omega
    rcases List.mem_cons.1 hd with hdc | hdr
    · rw [hdc]
      exact v2_run_processed_mono env rest (V2.step env s c) c.path
        (v2_step_recorded_of_failed_eq env s c hstepf)
    · exact ih (V2.step env s c) (by omega) d hdr

lemma load_mono_append (lines : List String) (x q : String)
    (h : q ∈ load_processed_set lines) : q ∈ load_processed_set (lines ++ [x]) := by
  rw [mem_load_processed_set] at h ⊢
  obtain ⟨⟨ln, hln, hs⟩, hq⟩ := h
  exact ⟨⟨ln, List.mem_append_left _ hln, hs⟩, hq⟩

lemma load_self_append (lines : List String) (x : String)
    (hc1 : pyStrip x = x) (hc2 : x ≠ "") :
    x ∈ load_processed_set (lines ++ [x]) := by
  rw [mem_load_processed_set]
  exact ⟨⟨x, List.mem_append_right _ (List.mem_singleton.2 rfl), hc1⟩, hc2⟩

lemma v2_step_storeInv (env : Env) (s : RunState) (c : Candidate)
    (hc1 : pyStrip c.path = c.path) (hc2 : c.path ≠ "")
    (hInv : ∀ p ∈ s.processed, p ∈ load_processed_set s.storeLines) :
    ∀ p ∈ (V2.step env s c).processed,
      p ∈ load_processed_set (V2.step env s c).storeLines := by
  by_cases hm : c.path ∈ s.processed
  · rw [v2_step_mem env s c hm]
    exact hInv
  · cases ha : allArtifactsB s.disk c with
    | true =>
      rw [v2_step_promote env s c hm ha]
      unfold V2.promote
      intro p hp
      simp only [Finset.mem_insert] at hp
      rcases hp with hp | hp
      · rw [hp]
        exact load_self_append s.storeLines c.path hc1 hc2
      · exact load_mono_append s.storeLines c.path p (hInv p hp)
    | false =>
      rw [v2_step_eligible env s c hm ha]
      set sV := ({ s with total := s.total + 1, transcribeCalls := s.transcribeCalls ++ [c.path] } : RunState) with hsV
      cases h3 : env.transcribe c.path with
      | error msg =>
        rw [v2_processOne_error env sV c msg h3]
        unfold V2.failLog
        exact hInv
      | ok raw =>
        obtain ⟨fst, fpr, _, _, _, _, _, _, _, _⟩ :=
          attemptWrites_frame env V2.save_docx sV c (pyStrip raw)
        cases hw : (attemptWrites env V2.save_docx sV c (pyStrip raw)).2 with
        | some m =>
          rw [v2_processOne_ok_fail env sV c raw m h3 hw]
          unfold V2.failLog
          intro p hp
          simp only [fpr] at hp
          simp only [fst]
          exact hInv p hp
        | none =>
          rw [v2_processOne_ok_succ env sV c raw h3 hw]
          unfold V2.succLog
          intro p hp
          simp only [Finset.mem_insert, fpr] at hp
          simp only [fst]
          rcases hp with hp | hp
          · rw [hp]
            exact load_self_append s.storeLines c.path hc1 hc2
          · exact load_mono_append s.storeLines c.path p (hInv p hp)

lemma v2_run_storeInv (env : Env) (cs : List Candidate) : ∀ s : RunState,
    (∀ c ∈ cs, pyStrip c.path = c.path ∧ c.path ≠ "") →
    (∀ p ∈ s.processed, p ∈ load_processed_set s.storeLines) →
    ∀ p ∈ (V2.transcribe_folder env s cs).processed,
      p ∈ load_processed_set (V2.transcribe_folder env s cs).storeLines := by
  induction cs with
  | nil => intro s _ hInv; rw [v2_run_nil]; exact hInv
  | cons c rest ih =>
    intro s hclean hInv
    rw [v2_run_cons]
    obtain ⟨hc1, hc2⟩ := hclean c (List.mem_cons_self c rest)
    exact ih (V2.step env s c)
      (fun d hd => hclean d (List.mem_cons_of_mem c hd))
      (v2_step_storeInv env s c hc1 hc2 hInv)

lemma v2_run_all_skip (env : Env) (cs : List Candidate) : ∀ s : RunState,
    (∀ c ∈ cs, c.path ∈ s.processed) →
    (V2.transcribe_folder env s cs).disk = s.disk ∧
    (V2.transcribe_folder env s cs).storeLines = s.storeLines ∧
    (V2.transcribe_folder env s cs).processed = s.processed ∧
    (V2.transcribe_folder env s cs).logSuccess = s.logSuccess ∧
    (V2.transcribe_folder env s cs).logError = s.logError ∧
    (V2.transcribe_folder env s cs).transcribeCalls = s.transcribeCalls ∧
    (V2.transcribe_folder env s cs).writeCalls = s.writeCalls ∧
    (V2.transcribe_folder env s cs).total = s.total + cs.length ∧
    (V2.transcribe_folder env s cs).skippedProcessed = s.skippedProcessed + cs.length ∧
    (V2.transcribe_folder env s cs).skippedExisting = s.skippedExisting ∧
    (V2.transcribe_folder env s cs).succeeded = s.succeeded ∧
    (V2.transcribe_folder env s cs).failed = s.failed := by
  induction cs with
  | nil =>
    intro s _
    rw [v2_run_nil]
    exact ⟨rfl, rfl, rfl, rfl, rfl, rfl, rfl, rfl, rfl, rfl, rfl, rfl⟩
  | cons c rest ih =>
    intro s hall
    rw [v2_run_cons]
    have hstep := v2_step_mem env s c (hall c (List.mem_cons_self c rest))
    have e1 : (V2.step env s c).disk = s.disk := by rw [hstep]
    have e2 : (V2.step env s c).storeLines = s.storeLines := by rw [hstep]
    have e3 : (V2.step env s c).processed = s.processed := by rw [hstep]
    have e4 : (V2.step env s c).logSuccess = s.logSuccess := by rw [hstep]
    have e5 : (V2.step env s c).logError = s.logError := by rw [hstep]
    have e6 : (V2.step env s c).transcribeCalls = s.transcribeCalls := by rw [hstep]
    have e7 : (V2.step env s c).writeCalls = s.writeCalls := by rw [hstep]
    have e8 : (V2.step env s c).total = s.total + 1 := by rw [hstep]
    have e9 : (V2.step env s c).skippedProcessed = s.skippedProcessed + 1 := by rw [hstep]
    have e10 : (V2.step env s c).skippedExisting = s.skippedExisting := by rw [hstep]
    have e11 : (V2.step env s c).succeeded = s.succeeded := by rw [hstep]
    have e12 : (V2.step env s c).failed = s.failed := by rw [hstep]
    have hall2 : ∀ d ∈ rest, d.path ∈ (V2.step env s c).processed := by
      intro d hd
      rw [e3]
      exact hall d (List.mem_cons_of_mem c hd)
    obtain ⟨a1, a2, a3, a4, a5, a6, a7, a8, a9, a10, a11, a12⟩ := ih (V2.step env s c) hall2
    refine ⟨a1.trans e1, a2.trans e2, a3.trans e3, a4.trans e4, a5.trans e5,
            a6.trans e6, a7.trans e7, ?_, ?_, a10.trans e10, a11.trans e11,
            a12.trans e12⟩
    · rw [a8, e8]
      simp only [List.length_cons]
      omega
    · rw [a9, e9]
      simp only [List.length_cons]
      omega

/-- One invocation of transcribe_mp3_v2 on a directory: hydrate state from
the files on disk, then run the walk loop. -/
def v2_first_run (env1 : Env) (d : Disk) (store : List String)
    (ls le : List LogEntry) (cs : List Candidate) : RunState :=
  V2.transcribe_folder env1 (V2.mkInit d store ls le) cs

/-- A second invocation over the unchanged directory: the disk, the
processed-list file and the logs are whatever the first run left behind,
the processed set is re-hydrated by load_processed_set, and discovery
yields the same candidates. -/
def v2_second_run (env1 env2 : Env) (d : Disk) (store : List String)
    (ls le : List LogEntry) (cs : List Candidate) : RunState :=
  V2.transcribe_folder env2
    (V2.mkInit (v2_first_run env1 d store ls le cs).disk
      (v2_first_run env1 d store ls le cs).storeLines
      (v2_first_run env1 d store ls le cs).logSuccess
      (v2_first_run env1 d store ls le cs).logError) cs

/-- Claim C6: if the first run over a directory has zero failures (and the
candidate paths are genuine non-blank stripped paths), the second run over
the unchanged directory is pure skipping: it performs zero Transcriber
calls and zero Writer calls, leaves the disk (hence every output artifact),
the processed-list file and both logs exactly as the first run left them,
and reports every discovered file as skipped-processed with zero succeeded,
zero skipped-existing and zero failed transitions. -/
theorem c6_idempotent (env1 env2 : Env) (d : Disk) (store : List String)
    (ls le : List LogEntry) (cs : List Candidate)
    (hclean : ∀ c ∈ cs, pyStrip c.path = c.path ∧ c.path ≠ "")
    (hnofail : (v2_first_run env1 d store ls le cs).failed = 0) :
    (v2_second_run env1 env2 d store ls le cs).disk =
      (v2_first_run env1 d store ls le cs).disk ∧
    (v2_second_run env1 env2 d store ls le cs).storeLines =
      (v2_first_run env1 d store ls le cs).storeLines ∧
    (v2_second_run env1 env2 d store ls le cs).logSuccess =
      (v2_first_run env1 d store ls le cs).logSuccess ∧
    (v2_second_run env1 env2 d store ls le cs).logError =
      (v2_first_run env1 d store ls le cs).logError ∧
    (v2_second_run env1 env2 d store ls le cs).transcribeCalls = [] ∧
    (v2_second_run env1 env2 d store ls le cs).writeCalls = [] ∧
    (v2_second_run env1 env2 d store ls le cs).total = cs.length ∧
    (v2_second_run env1 env2 d store ls le cs).skippedProcessed = cs.length ∧
    (v2_second_run env1 env2 d store ls le cs).skippedExisting = 0 ∧
    (v2_second_run env1 env2 d store ls le cs).succeeded = 0 ∧
    (v2_second_run env1 env2 d store ls le cs).failed = 0 := by
  have hrec : ∀ c ∈ cs, c.path ∈ (v2_first_run env1 d store ls le cs).processed := by
    refine fun c hc => v2_run_all_recorded env1 cs (V2.mkInit d store ls le) ?_ c hc
    exact hnofail
  have hInv1 : ∀ p ∈ (v2_first_run env1 d store ls le cs).processed,
      p ∈ load_processed_set (v2_first_run env1 d store ls le cs).storeLines := by
    refine v2_run_storeInv env1 cs (V2.mkInit d store ls le) hclean ?_
    intro p hp
    exact hp
  have hall2 : ∀ c ∈ cs, c.path ∈
      (V2.mkInit (v2_first_run env1 d store ls le cs).disk
        (v2_first_run env1 d store ls le cs).storeLines
        (v2_first_run env1 d store ls le cs).logSuccess
        (v2_first_run env1 d store ls le cs).logError).processed := by
    intro c hc
    exact hInv1 c.path (hrec c hc)
  obtain ⟨a1, a2, _, a4, a5, a6, a7, a8, a9, a10, a11, a12⟩ :=
    v2_run_all_skip env2 cs
      (V2.mkInit (v2_first_run env1 d store ls le cs).disk
        (v2_first_run env1 d store ls le cs).storeLines
        (v2_first_run env1 d store ls le cs).logSuccess
        (v2_first_run env1 d store ls le cs).logError) hall2
  exact ⟨a1, a2, a4, a5, a6, a7, a8.trans (Nat.zero_add _), a9.trans (Nat.zero_add _),
         a10, a11, a12⟩

/-- Claim C6, witness: two files, both transcribed successfully on the
first run; the second run over the unchanged directory only skips. -/
theorem c6_idempotent_witness :
    ((∀ c ∈ [wCand, wCandB], pyStrip c.path = c.path ∧ c.path ≠ "") ∧
      (v2_first_run wEnvOk wDisk2 [] [] [] [wCand, wCandB]).failed = 0) ∧
    ((v2_second_run wEnvOk wEnvOk wDisk2 [] [] [] [wCand, wCandB]).disk =
        (v2_first_run wEnvOk wDisk2 [] [] [] [wCand, wCandB]).disk ∧
      (v2_second_run wEnvOk wEnvOk wDisk2 [] [] [] [wCand, wCandB]).storeLines =
        (v2_first_run wEnvOk wDisk2 [] [] [] [wCand, wCandB]).storeLines ∧
      (v2_second_run wEnvOk wEnvOk wDisk2 [] [] [] [wCand, wCandB]).logSuccess =
        (v2_first_run wEnvOk wDisk2 [] [] [] [wCand, wCandB]).logSuccess ∧
      (v2_second_run wEnvOk wEnvOk wDisk2 [] [] [] [wCand, wCandB]).logError =
        (v2_first_run wEnvOk wDisk2 [] [] [] [wCand, wCandB]).logError ∧
      (v2_second_run wEnvOk wEnvOk wDisk2 [] [] [] [wCand, wCandB]).transcribeCalls = [] ∧
      (v2_second_run wEnvOk wEnvOk wDisk2 [] [] [] [wCand, wCandB]).writeCalls = [] ∧
      (v2_second_run wEnvOk wEnvOk wDisk2 [] [] [] [wCand, wCandB]).total =
        [wCand, wCandB].length ∧
      (v2_second_run wEnvOk wEnvOk wDisk2 [] [] [] [wCand, wCandB]).skippedProcessed =
        [wCand, wCandB].length ∧
      (v2_second_run wEnvOk wEnvOk wDisk2 [] [] [] [wCand, wCandB]).skippedExisting = 0 ∧
      (v2_second_run wEnvOk wEnvOk wDisk2 [] [] [] [wCand, wCandB]).succeeded = 0 ∧
      (v2_second_run wEnvOk wEnvOk wDisk2 [] [] [] [wCand, wCandB]).failed = 0) :=
  ⟨⟨by decide, by decide⟩,
    c6_idempotent wEnvOk wEnvOk wDisk2 [] [] [] [wCand, wCandB] (by decide) (by decide)⟩
